import Mathlib

/-!
Verification of the episode discovery / deduplication / announcement pipeline
(src/module_find_episodes.py).

The single source module is shallowly embedded below.  External collaborators
(persistence, the reddit client, the service-handler registry) are not part of
src/: they are modelled from the specification as explicit parameters or as a
concrete persistence state, each marked with a doc comment.  Side conditions of
the embedding:

* the Python name `show` is a Lean keyword, so variables named `show` in the
  source become `sho` and the `Stream.show` field becomes `Stream.showId`;
* Python keyword arguments of `safe_format` become an association list of
  string key/value pairs; integer values are passed through `toString`, which
  agrees with Python `str` on integers, negatives included;
* handler discovery calls are `Except`-valued so that a raised exception in a
  collaborator can be distinguished from an in-band "no episode" result;
* the renderer is embedded twice: `safe_format` is the total plain-name
  fragment used inside the pipeline embedding, and `safe_format_full` embeds
  CPython `str.format_map` over the `_SafeDict`, including conversions, format
  specs, and raising (modelled as `none`); the renderer properties are settled
  against `safe_format_full`.
-/

namespace Holo

/-- Tracked show record (spec section 3).  The `key` field is the show's
canonical key, modelled from the spec for the synthetic generic-pass stream. -/
structure Show where
  id : Nat
  name : String
  enabled : Bool
  has_source : Bool
  delayed : Bool
  key : String
deriving DecidableEq

/-- Stream record binding a show to a service (spec section 3).  The source
field `show` is called `showId` here because `show` is a Lean keyword. -/
structure Stream where
  showId : Nat
  service : Nat
  show_key : String
  remote_offset : Int
  display_offset : Int
  active : Bool
deriving DecidableEq

/-- Transient episode candidate produced by a service handler.  An empty
`name` models a missing name, matching the Python truthiness check. -/
structure Episode where
  number : Int
  name : String
  is_live : Bool
deriving DecidableEq

/-- Service record (spec section 3). -/
structure Service where
  id : Nat
  name : String
  enabled : Bool
  use_in_post : Bool
deriving DecidableEq

/-- Show-associated external link (spec section 3). -/
structure Link where
  showId : Nat
  site : Nat
deriving DecidableEq

/-- Link site record (spec section 3). -/
structure LinkSite where
  id : Nat
  name : String
  enabled : Bool
deriving DecidableEq

/-- Persisted episode record: the (show, canonical number, post URL) triple
that is the source of truth for "already announced" (spec section 3). -/
structure EpisodeRecord where
  showId : Nat
  number : Int
  link : String
deriving DecidableEq

/-- Modelled from the spec: the persistence store (spec sections 3 and 6).
The store implementation is not under src/; it is modelled as a concrete
state holding the record lists that the queries and mutations of section 6
read and write. -/
structure Database where
  shows : List Show
  streams : List Stream
  services : List Service
  episodes : List EpisodeRecord
  links : List Link
  sites : List LinkSite
deriving DecidableEq

/-- Modelled from the spec: persistence query `get_services(enabled=True)`. -/
def get_services (db : Database) (enabled : Bool) : List Service :=
  db.services.filter (fun s => s.enabled == enabled)

/-- Modelled from the spec: persistence query `get_streams(service=...)`. -/
def get_streams_for_service (db : Database) (service : Service) : List Stream :=
  db.streams.filter (fun st => st.service == service.id)

/-- Modelled from the spec: persistence query `get_streams(show=...)`. -/
def get_streams_for_show (db : Database) (sho : Show) : List Stream :=
  db.streams.filter (fun st => st.showId == sho.id)

/-- Modelled from the spec: persistence query `get_show(stream=...)`. -/
def get_show (db : Database) (stream : Stream) : Option Show :=
  db.shows.find? (fun s => s.id == stream.showId)

/-- Modelled from the spec: persistence query `get_service(id=...)`. -/
def get_service (db : Database) (i : Nat) : Option Service :=
  db.services.find? (fun s => s.id == i)

/-- Modelled from the spec: persistence query `get_shows(missing_stream=True)`,
the shows with no tracked stream at all. -/
def get_shows_missing_stream (db : Database) : List Show :=
  db.shows.filter (fun s => !(db.streams.any (fun st => st.showId == s.id)))

/-- Modelled from the spec: persistence query `get_shows(delayed=True)`. -/
def get_shows_delayed (db : Database) : List Show :=
  db.shows.filter (fun s => s.delayed)

/-- Modelled from the spec: persistence query `get_links(show)`. -/
def get_links (db : Database) (sho : Show) : List Link :=
  db.links.filter (fun l => l.showId == sho.id)

/-- Modelled from the spec: persistence query `get_link_site(id=...)`. -/
def get_link_site (db : Database) (i : Nat) : Option LinkSite :=
  db.sites.find? (fun s => s.id == i)

/-- Modelled from the spec: persistence query `get_episodes(show)`. -/
def get_episodes (db : Database) (sho : Show) : List EpisodeRecord :=
  db.episodes.filter (fun r => r.showId == sho.id)

/-- Modelled from the spec: persistence query `stream_has_episode(stream,
number)`: whether (stream's show, canonical number) already has a record. -/
def stream_has_episode (db : Database) (stream : Stream) (number : Int) : Bool :=
  db.episodes.any (fun r => r.showId == stream.showId && r.number == number)

/-- Modelled from the spec: persistence mutation `add_episode(show, number,
url)` appending one persisted record. -/
def add_episode (db : Database) (showId : Nat) (number : Int) (url : String) : Database :=
  { db with episodes := db.episodes ++ [⟨showId, number, url⟩] }

/-- Modelled from the spec: persistence mutation `set_show_delayed(show, b)`. -/
def set_show_delayed (db : Database) (sho : Show) (b : Bool) : Database :=
  { db with shows := db.shows.map (fun s => if s.id == sho.id then { s with delayed := b } else s) }

/-- Per-block format table `config.post_formats` (configuration collaborator,
spec section 6). -/
structure Formats where
  spoiler : String
  stream : String
  link : String
  discussion_header : String
  discussion : String
  discussion_none : String
deriving DecidableEq

/-- Configuration surface consumed by the module (spec section 6). -/
structure Config where
  useragent : String
  debug : Bool
  subreddit : String
  post_title : String
  post_body : String
  post_formats : Formats

/-- Post handle returned by the publishing client. -/
structure Post where
  id : String

/-- Modelled from the spec: the publishing client collaborator (the `reddit`
module is not under src/).  `submit_text_post` returns no handle on failure
and never raises past this boundary (spec section 4.3). -/
structure RedditClient where
  submit_text_post : String → String → String → Option Post
  get_shortlink_from_id : String → String

/-- Modelled from the spec: a service handler collaborator (spec section 6).
A discovery call either returns in-band (`Except.ok`, with `none` meaning
"no episode found") or raises (`Except.error`). -/
structure ServiceHandler where
  name : String
  is_generic : Bool
  get_latest_episode : Stream → String → Except Unit (Option Episode)
  get_stream_link : Stream → String

/-- Modelled from the spec: a link handler collaborator. -/
structure LinkHandler where
  get_link : Link → String

/-- Modelled from the spec: the `services` module registry (not under src/),
resolving handlers for services and link sites. -/
structure ServicesEnv where
  get_service_handler : Service → ServiceHandler
  get_link_handler : LinkSite → LinkHandler

-- ### Template renderer (`safe_format`, src lines 165-177)

/-- Lookup of a keyword argument in the `_SafeDict` built from the kwargs. -/
def lookupKey : List (String × String) → String → Option String
  | [], _ => none
  | (a, v) :: rest, k => if a = k then some v else lookupKey rest k

/-- Substitution of one parsed placeholder name: the value when the name is
present in the kwargs, else the literal placeholder text (the `_SafeDict`
missing-key behaviour, src lines 165-167). -/
def substKey (kwargs : List (String × String)) (nameChars : List Char) : List Char :=
  match lookupKey kwargs (String.mk nameChars) with
  | some v => v.data
  | none => '{' :: (nameChars ++ ['}'])

/-- Character-level scan of `str.format_map` over a `_SafeDict`, restricted to
the plain-name fragment: a placeholder name is collected between braces
(`some acc` state) and substituted on the closing brace; doubled braces are
literal braces.  This total function is used by the pipeline embedding, where
no judged property depends on conversion or format-spec handling; the full
machinery, including the raising cases, is `fmtCharsFull` below. -/
def fmtChars (kwargs : List (String × String)) : Option (List Char) → List Char → List Char
  | none, [] => []
  | none, '{' :: '{' :: rest => '{' :: fmtChars kwargs none rest
  | none, '}' :: '}' :: rest => '}' :: fmtChars kwargs none rest
  | none, '{' :: rest => fmtChars kwargs (some []) rest
  | none, c :: rest => c :: fmtChars kwargs none rest
  | some acc, [] => '{' :: acc.reverse
  | some acc, '}' :: rest => substKey kwargs acc.reverse ++ fmtChars kwargs none rest
  | some acc, c :: rest => fmtChars kwargs (some (c :: acc)) rest

/-- Plain-name-fragment embedding of `safe_format` (src lines 169-177): format
the template with the kwargs, ignoring unused kwargs and echoing unmatched
placeholders.  The full conversion/format-spec behaviour of the source is
embedded by `safe_format_full` below. -/
def safe_format (s : String) (kwargs : List (String × String)) : String :=
  String.mk (fmtChars kwargs none s.data)

-- ### Substring test (Python `in` on strings) used by `_format_post_text`

/-- Whether `needle` occurs as a contiguous run in a character list. -/
def hasSubstr (needle : List Char) : List Char → Bool
  | [] => needle.isEmpty
  | c :: rest => needle.isPrefixOf (c :: rest) || hasSubstr needle rest

/-- Embedding of the Python substring test `sub in s`. -/
def strContains (s : String) (sub : String) : Bool :=
  hasSubstr sub.data s.data

/-- Embedding of Python `str.strip()`: drop leading and trailing whitespace. -/
def pyStrip (s : String) : String :=
  String.mk (((s.data.dropWhile Char.isWhitespace).reverse.dropWhile Char.isWhitespace).reverse)

-- ### Full embedding of the renderer (CPython format_map machinery)

/-- The apostrophe character, written by code point. -/
def quoteChar : Char := Char.ofNat 39

/-- The backslash character, written by code point. -/
def backslashChar : Char := Char.ofNat 92

/-- The format-spec alignment characters valid for strings (CPython also has
an equals sign, which raises for strings and is handled by rejection). -/
def alignChar (c : Char) : Bool := c == '<' || c == '>' || c == '^'

/-- Decimal value of a digit run. -/
def digitsToNat (l : List Char) : Nat :=
  l.foldl (fun n c => n * 10 + (c.toNat - 48)) 0

/-- Pad a string value to the given width with the given fill and alignment,
as CPython formats a string with an align/fill/width spec. -/
def padTo (obj : List Char) (fill align : Char) (w : Nat) : List Char :=
  if w ≤ obj.length then obj
  else
    let n := w - obj.length
    if align = '>' then List.replicate n fill ++ obj
    else if align = '^' then
      List.replicate (n / 2) fill ++ obj ++ List.replicate (n - n / 2) fill
    else obj ++ List.replicate n fill

/-- Width-and-type tail of a string format spec: a digit run then nothing or
the string type code; anything else (precision, grouping, numeric type codes
such as d) raises for a string value, modelled as `none`. -/
def padStage (obj : List Char) (fill align : Char) (rest : List Char) : Option (List Char) :=
  let wdigits := rest.takeWhile Char.isDigit
  let leftover := rest.drop wdigits.length
  if leftover = [] ∨ leftover = ['s'] then some (padTo obj fill align (digitsToNat wdigits))
  else none

/-- CPython `format(str, spec)` on the modelled spec fragment
[[fill]align][0][width][s]: an explicit fill with alignment, a bare
alignment, the zero flag (which sets the fill and, with no alignment given,
forces the equals alignment that raises for strings), a width, and the
optional string type code.  Anything else is `none`: for type codes, signs,
grouping and the equals alignment that is faithful raising; precision
(which CPython truncates) is outside the modelled fragment. -/
def applySpec (obj : List Char) (spec : List Char) : Option (List Char) :=
  if spec.isEmpty then some obj
  else
    let st : Option Char × Option Char × List Char :=
      match spec with
      | a :: b :: r =>
        if alignChar b then (some a, some b, r)
        else if alignChar a then (none, some a, b :: r)
        else (none, none, a :: b :: r)
      | [a] => if alignChar a then (none, some a, []) else (none, none, [a])
      | [] => (none, none, [])
    match st with
    | (fillOpt, alignOpt, rest) =>
      match rest with
      | '0' :: r2 =>
        match alignOpt with
        | none => none
        | some al => padStage obj (fillOpt.getD '0') al r2
      | _ => padStage obj (fillOpt.getD ' ') (alignOpt.getD '<') rest

/-- Conversion step of a replacement field: s is the identity on strings,
r and a wrap printable quote-free backslash-free text in quotes as repr and
ascii do (repr escaping beyond that fragment is modelled as `none`), and any
other conversion character raises, as in CPython. -/
def applyConv (c : Char) (obj : List Char) : Option (List Char) :=
  if c = 's' then some obj
  else if c = 'r' ∨ c = 'a' then
    if obj.all (fun ch =>
        decide (32 ≤ ch.toNat) && decide (ch.toNat ≤ 126) &&
        ch != quoteChar && ch != backslashChar) then
      some (quoteChar :: (obj ++ [quoteChar]))
    else none
  else none

/-- One replacement field of `str.format_map` over a `_SafeDict`: the field
name (the part before any conversion or spec) is looked up, a missing name
yields the literal braced name (the `_SafeDict` missing-key behaviour, src
lines 165-167), then the conversion and the format spec are applied to the
resulting string value.  Faithful to CPython on plain names, on align, fill,
width and zero-flag specs, on the s/r/a conversions of printable quote-free
text, and on the raising cases: empty and all-digit (positional) field
names, unknown conversions, a conversion not followed by a colon or the
closing brace, and the rejected specs of `applySpec`.  Attribute and index
paths and nested braces in a field are outside the modelled fragment and
map to `none`; no theorem below relies on them. -/
def substField (kwargs : List (String × String)) (field : List Char) : Option (List Char) :=
  let name := field.takeWhile (fun c => c != '!' && c != ':')
  let rest := field.drop name.length
  if name.isEmpty then none
  else if name.all Char.isDigit then none
  else if name.any (fun c => c == '.' || c == '[' || c == ']' || c == '{') then none
  else
    let obj := match lookupKey kwargs (String.mk name) with
      | some v => v.data
      | none => '{' :: (name ++ ['}'])
    match rest with
    | [] => some obj
    | '!' :: cr =>
      match cr with
      | [] => none
      | c :: cr2 =>
        match applyConv c obj with
        | none => none
        | some obj2 =>
          match cr2 with
          | [] => some obj2
          | ':' :: spec => applySpec obj2 spec
          | _ => none
    | ':' :: spec => applySpec obj spec
    | _ => none

/-- Character-level embedding of `str.format_map` over a `_SafeDict` with
`none` modelling a raised exception: doubled braces are literal braces, a
replacement field is collected between braces and substituted by
`substField`, and a stray closing brace or an unterminated field raises, as
in the source. -/
def fmtCharsFull (kwargs : List (String × String)) :
    Option (List Char) → List Char → Option (List Char)
  | none, [] => some []
  | none, '{' :: '{' :: rest => Option.map (fun l => '{' :: l) (fmtCharsFull kwargs none rest)
  | none, '}' :: '}' :: rest => Option.map (fun l => '}' :: l) (fmtCharsFull kwargs none rest)
  | none, '{' :: rest => fmtCharsFull kwargs (some []) rest
  | none, '}' :: _ => none
  | none, c :: rest => Option.map (fun l => c :: l) (fmtCharsFull kwargs none rest)
  | some _, [] => none
  | some acc, '}' :: rest =>
    match substField kwargs acc.reverse with
    | none => none
    | some out => Option.map (fun l => out ++ l) (fmtCharsFull kwargs none rest)
  | some acc, c :: rest => fmtCharsFull kwargs (some (c :: acc)) rest

/-- Full embedding of `safe_format` (src lines 169-177): `none` models
`format_map` raising.  The pipeline renderer `safe_format` above is this
function's plain-name fragment; the renderer properties are settled against
this embedding. -/
def safe_format_full (s : String) (kwargs : List (String × String)) : Option String :=
  Option.map String.mk (fmtCharsFull kwargs none s.data)

/-- The field names a template scan looks up, in scan order: the first
component of each replacement field that `fmtCharsFull` passes to
`substField`. -/
def fieldNames : Option (List Char) → List Char → List String
  | none, [] => []
  | none, '{' :: '{' :: rest => fieldNames none rest
  | none, '}' :: '}' :: rest => fieldNames none rest
  | none, '{' :: rest => fieldNames (some []) rest
  | none, _ :: rest => fieldNames none rest
  | some _, [] => []
  | some acc, '}' :: rest =>
    String.mk (acc.reverse.takeWhile (fun c => c != '!' && c != ':')) :: fieldNames none rest
  | some acc, c :: rest => fieldNames (some (c :: acc)) rest

-- ### Content block generators (src lines 117-161)

/-- Embedding of `_gen_text_spoiler` (src lines 117-120). -/
def _gen_text_spoiler (formats : Formats) (sho : Show) : String :=
  if sho.has_source then formats.spoiler else ""

/-- Loop body of `_gen_text_streams` (src lines 126-133): the rendered line
list, in stream order, keeping only active streams whose service is enabled
and flagged for posting.  A stream whose service id has no record would make
the source raise on attribute access; such a stream is skipped here, and no
property below depends on that case. -/
def streamTexts (sv : ServicesEnv) (db : Database) (formats : Formats) : List Stream → List String
  | [] => []
  | stream :: rest =>
    if stream.active then
      match get_service db stream.service with
      | some service =>
        if service.enabled && service.use_in_post then
          safe_format formats.stream
              [("service_name", service.name),
               ("stream_link", (sv.get_service_handler service).get_stream_link stream)]
            :: streamTexts sv db formats rest
        else streamTexts sv db formats rest
      | none => streamTexts sv db formats rest
    else streamTexts sv db formats rest

/-- Embedding of `_gen_text_streams` (src lines 122-137): newline-joined lines
when the show has streams, the literal placeholder when it has none. -/
def _gen_text_streams (sv : ServicesEnv) (db : Database) (formats : Formats) (sho : Show) : String :=
  let streams := get_streams_for_show db sho
  if streams.length > 0 then
    String.intercalate "\n" (streamTexts sv db formats streams)
  else "*None*"

/-- Loop body of `_gen_text_links` (src lines 142-148).  A link whose site id
has no record would make the source raise; it is skipped here. -/
def linkTexts (sv : ServicesEnv) (db : Database) (formats : Formats) : List Link → List String
  | [] => []
  | link :: rest =>
    match get_link_site db link.site with
    | some site =>
      if site.enabled then
        safe_format formats.link
            [("site_name", site.name), ("link", (sv.get_link_handler site).get_link link)]
          :: linkTexts sv db formats rest
      else linkTexts sv db formats rest
    | none => linkTexts sv db formats rest

/-- Embedding of `_gen_text_links` (src lines 139-150). -/
def _gen_text_links (sv : ServicesEnv) (db : Database) (formats : Formats) (sho : Show) : String :=
  String.intercalate "\n" (linkTexts sv db formats (get_links db sho))

/-- Embedding of `_gen_text_discussions` (src lines 152-161). -/
def _gen_text_discussions (db : Database) (formats : Formats) (sho : Show) : String :=
  let episodes := get_episodes db sho
  if episodes.length > 0 then
    String.intercalate "\n"
      (formats.discussion_header ::
        episodes.map (fun e =>
          safe_format formats.discussion
            [("episode_num", toString e.number), ("episode_link", e.link)]))
  else formats.discussion_none

-- ### Post composer (src lines 78-113)

/-- The display number injected by the post composer (src line 100):
canonical number plus the stream's display offset. -/
def _display_num (episode : Episode) (stream : Stream) : Int :=
  episode.number + stream.display_offset

/-- Embedding of `_format_post_text` (src lines 98-113).  The module-level
`services` registry of the source is passed explicitly as `sv`. -/
def _format_post_text (sv : ServicesEnv) (db : Database) (text : String) (formats : Formats)
    (sho : Show) (episode : Episode) (stream : Stream) : String :=
  let episode_num := _display_num episode stream
  let text := if strContains text "{spoiler}" then
      safe_format text [("spoiler", _gen_text_spoiler formats sho)] else text
  let text := if strContains text "{streams}" then
      safe_format text [("streams", _gen_text_streams sv db formats sho)] else text
  let text := if strContains text "{links}" then
      safe_format text [("links", _gen_text_links sv db formats sho)] else text
  let text := if strContains text "{discussions}" then
      safe_format text [("discussions", _gen_text_discussions db formats sho)] else text
  let episode_name := if episode.name ≠ "" then ": " ++ episode.name else ""
  let text := safe_format text
    [("show_name", sho.name), ("episode", toString episode_num), ("episode_name", episode_name)]
  pyStrip text

/-- Embedding of `_create_post_contents` (src lines 89-96): the (title, body)
pair rendered from the configured raw templates. -/
def _create_post_contents (config : Config) (sv : ServicesEnv) (db : Database)
    (sho : Show) (stream : Stream) (episode : Episode) : String × String :=
  let title := _format_post_text sv db config.post_title config.post_formats sho episode stream
  let body := _format_post_text sv db config.post_body config.post_formats sho episode stream
  (title, body)

/-- Result of one `_create_reddit_post` call: the returned URL, the number of
`submit_text_post` calls made (instrumentation), and the composed contents. -/
structure PostAttempt where
  post_url : Option String
  submit_calls : Nat
  contents : String × String
deriving DecidableEq

/-- Embedding of `_create_reddit_post` (src lines 78-87).  The `reddit`
module of the source is passed explicitly as the client `rc`. -/
def _create_reddit_post (config : Config) (sv : ServicesEnv) (rc : RedditClient) (db : Database)
    (sho : Show) (stream : Stream) (episode : Episode) (submit : Bool) : PostAttempt :=
  let tb := _create_post_contents config sv db sho stream episode
  if submit then
    match rc.submit_text_post config.subreddit tb.1 tb.2 with
    | some new_post => ⟨some (rc.get_shortlink_from_id new_post.id), 1, tb⟩
    | none => ⟨none, 1, tb⟩
  else ⟨none, 0, tb⟩

-- ### Episode processor (src lines 54-76)

/-- Terminal state of the episode processor (spec section 4.2). -/
inductive ProcState where
  | notLive
  | alreadySeen
  | committed
  | failed
deriving DecidableEq

/-- One persistence mutation requested by the episode processor. -/
inductive Mutation where
  | addEpisode (showId : Nat) (number : Int) (url : String)
  | setShowDelayed (showId : Nat) (b : Bool)
deriving DecidableEq

/-- Result of one `_process_new_episode` call: the persistence state after the
call, the terminal state, the episode value after the in-place number
adjustment, and an instrumentation trace of the dedup query argument, the
number of `submit_text_post` calls, the mutations issued, and the composed
post contents when the publish path ran. -/
structure ProcResult where
  db : Database
  state : ProcState
  episode : Episode
  dedupQuery : Option Int
  submitCalls : Nat
  mutations : List Mutation
  composed : Option (String × String)
deriving DecidableEq

/-- Embedding of `_process_new_episode` (src lines 54-76): offset adjustment,
dedup check, publish attempt, and commit. -/
def _process_new_episode (config : Config) (sv : ServicesEnv) (rc : RedditClient)
    (db : Database) (sho : Show) (stream : Stream) (episode : Episode) : ProcResult :=
  if episode.is_live then
    let episode := { episode with number := episode.number - stream.remote_offset }
    let already_seen := stream_has_episode db stream episode.number
    if already_seen then
      ⟨db, ProcState.alreadySeen, episode, some episode.number, 0, [], none⟩
    else
      let attempt := _create_reddit_post config sv rc db sho stream episode (!config.debug)
      match attempt.post_url with
      | some post_url =>
        let db1 := add_episode db stream.showId episode.number post_url
        if sho.delayed then
          ⟨set_show_delayed db1 sho false, ProcState.committed, episode, some episode.number,
            attempt.submit_calls,
            [Mutation.addEpisode stream.showId episode.number post_url,
             Mutation.setShowDelayed sho.id false],
            some attempt.contents⟩
        else
          ⟨db1, ProcState.committed, episode, some episode.number, attempt.submit_calls,
            [Mutation.addEpisode stream.showId episode.number post_url], some attempt.contents⟩
      | none =>
        ⟨db, ProcState.failed, episode, some episode.number, attempt.submit_calls, [],
          some attempt.contents⟩
  else
    ⟨db, ProcState.notLive, episode, none, 0, [], none⟩

-- ### Discovery driver (`main`, src lines 7-52)

/-- Instrumentation event of one driver run. -/
inductive TraceEvent where
  | checked (service : Nat) (show_key : String)
  | noEpisode (service : Nat) (show_key : String)
  | processed (service : Nat) (showId : Nat) (state : ProcState)
  | genericTried (showId : Nat) (service : Nat)
  | genericProcessed (showId : Nat) (service : Nat) (state : ProcState)
deriving DecidableEq

/-- Result of a driver run: the persistence state, the event trace, and
whether an uncaught collaborator exception aborted the remaining iteration
(the source `main` has no exception handler, so a raising handler propagates
out of the module; persistence mutations made before the raise remain). -/
structure DriverResult where
  db : Database
  trace : List TraceEvent
  aborted : Bool
deriving DecidableEq

/-- Inner stream loop of the dedicated pass (src lines 17-31): per stream,
look up its show, skip missing or disabled shows, ask the handler for the
latest episode, and process any episode found. -/
def runStreams (config : Config) (sv : ServicesEnv) (rc : RedditClient) (service : Service)
    (handler : ServiceHandler) :
    Database → List TraceEvent → List Stream → DriverResult
  | db, tr, [] => ⟨db, tr, false⟩
  | db, tr, stream :: rest =>
    match get_show db stream with
    | none => runStreams config sv rc service handler db tr rest
    | some sho =>
      if sho.enabled then
        let tr2 := tr ++ [TraceEvent.checked service.id stream.show_key]
        match handler.get_latest_episode stream config.useragent with
        | Except.error _ => ⟨db, tr2, true⟩
        | Except.ok none =>
          runStreams config sv rc service handler db
            (tr2 ++ [TraceEvent.noEpisode service.id stream.show_key]) rest
        | Except.ok (some episode) =>
          let r := _process_new_episode config sv rc db sho stream episode
          runStreams config sv rc service handler r.db
            (tr2 ++ [TraceEvent.processed service.id sho.id r.state]) rest
      else runStreams config sv rc service handler db tr rest

/-- Outer service loop of the dedicated pass (src lines 12-31). -/
def runServices (config : Config) (sv : ServicesEnv) (rc : RedditClient) :
    Database → List TraceEvent → List Service → DriverResult
  | db, tr, [] => ⟨db, tr, false⟩
  | db, tr, service :: rest =>
    let handler := sv.get_service_handler service
    let streams := get_streams_for_service db service
    let r := runStreams config sv rc service handler db tr streams
    if r.aborted then r
    else runServices config sv rc r.db r.trace rest

/-- Modelled from the spec: `data.models.Stream.from_show` is not under src/.
Spec section 4.1: the generic pass synthesizes a stream with offsets = 0 and
key = the show's canonical key.  The synthetic service id and active flag are
never read on this path. -/
def Stream.from_show (sho : Show) : Stream :=
  { showId := sho.id, service := 0, show_key := sho.key,
    remote_offset := 0, display_offset := 0, active := false }

/-- Inner service loop of the generic pass for one show (src lines 40-52):
try, in order, only handlers flagged generic, and stop at the first handler
returning an episode. -/
def runGenericServices (config : Config) (sv : ServicesEnv) (rc : RedditClient)
    (sho : Show) (stream : Stream) :
    Database → List TraceEvent → List Service → DriverResult
  | db, tr, [] => ⟨db, tr, false⟩
  | db, tr, service :: rest =>
    let handler := sv.get_service_handler service
    if handler.is_generic then
      let tr2 := tr ++ [TraceEvent.genericTried sho.id service.id]
      match handler.get_latest_episode stream config.useragent with
      | Except.error _ => ⟨db, tr2, true⟩
      | Except.ok none => runGenericServices config sv rc sho stream db tr2 rest
      | Except.ok (some episode) =>
        let r := _process_new_episode config sv rc db sho stream episode
        ⟨r.db, tr2 ++ [TraceEvent.genericProcessed sho.id service.id r.state], false⟩
    else runGenericServices config sv rc sho stream db tr rest

/-- Modelled from the spec: the Python set union
`set(get_shows(missing_stream=True)) | set(get_shows(delayed=True))`
(src line 34).  Python set iteration order is unspecified; the model keeps a
deduplicated list, and no property below depends on its order. -/
def otherShows (db : Database) : List Show :=
  (get_shows_missing_stream db ++ get_shows_delayed db).dedup

/-- Outer show loop of the generic pass (src lines 37-52). -/
def runGenericPass (config : Config) (sv : ServicesEnv) (rc : RedditClient)
    (enabled_services : List Service) :
    Database → List TraceEvent → List Show → DriverResult
  | db, tr, [] => ⟨db, tr, false⟩
  | db, tr, sho :: rest =>
    let r := runGenericServices config sv rc sho (Stream.from_show sho) db tr enabled_services
    if r.aborted then r
    else runGenericPass config sv rc enabled_services r.db r.trace rest

/-- Embedding of `main` (src lines 7-52): the dedicated per-service pass over
all enabled services, then the generic fallback pass over shows with no
stream or flagged delayed.  `reddit.init_reddit` is the client initialization
of a collaborator and has no model state; the initialized client is `rc`. -/
def main (config : Config) (sv : ServicesEnv) (rc : RedditClient) (db : Database) : DriverResult :=
  let enabled_services := get_services db true
  let r1 := runServices config sv rc db [] enabled_services
  if r1.aborted then r1
  else runGenericPass config sv rc enabled_services r1.db r1.trace (otherShows r1.db)

-- ### Concrete fixtures used by witnesses and counterexamples

/-- Format table used by the concrete runs. -/
def fmts0 : Formats :=
  { spoiler := "Spoiler warning"
    stream := "{service_name}: {stream_link}"
    link := "{site_name}: {link}"
    discussion_header := "Episode|Link"
    discussion := "{episode_num}|{episode_link}"
    discussion_none := "No discussions yet" }

/-- Configuration used by the concrete runs (`debug` off, so posts submit). -/
def cfg0 : Config :=
  { useragent := "ua", debug := false, subreddit := "r"
    post_title := "{show_name} - Episode {episode}{episode_name}"
    post_body := "{streams}", post_formats := fmts0 }

/-- Publishing client that always succeeds with post id `p1`. -/
def reddit0 : RedditClient :=
  { submit_text_post := fun _ _ _ => some ⟨"p1"⟩
    get_shortlink_from_id := fun i => "short/" ++ i }

/-- Publishing client that always fails to return a post handle. -/
def redditNone : RedditClient :=
  { submit_text_post := fun _ _ _ => none
    get_shortlink_from_id := fun i => "short/" ++ i }

/-- Handler registry whose handlers find nothing and link to `L`. -/
def svQuiet : ServicesEnv :=
  { get_service_handler := fun s =>
      { name := s.name, is_generic := false
        get_latest_episode := fun _ _ => Except.ok none
        get_stream_link := fun _ => "L" }
    get_link_handler := fun _ => { get_link := fun _ => "L" } }

/-- A tracked show used by the concrete runs. -/
def showA : Show :=
  { id := 1, name := "A", enabled := true, has_source := false, delayed := true, key := "a" }

/-- A second tracked show used by the driver counterexample. -/
def showB : Show :=
  { id := 2, name := "B", enabled := true, has_source := false, delayed := false, key := "b" }

/-- The service used by the concrete runs. -/
def svc1 : Service := { id := 1, name := "S", enabled := true, use_in_post := true }

/-- Stream of `showA` on `svc1`, with both offsets nonzero. -/
def streamA : Stream :=
  { showId := 1, service := 1, show_key := "a", remote_offset := 5, display_offset := 2,
    active := true }

/-- Stream of `showB` on `svc1`. -/
def streamB : Stream :=
  { showId := 2, service := 1, show_key := "b", remote_offset := 0, display_offset := 0,
    active := true }

/-- Store holding both shows, both streams, the service, and no episodes. -/
def db0 : Database :=
  { shows := [showA, showB], streams := [streamA, streamB], services := [svc1],
    episodes := [], links := [], sites := [] }

/-- A live episode candidate with raw number 1 (canonical 1 - 5 = -4). -/
def epLive : Episode := { number := 1, name := "Pilot", is_live := true }

/-- A live episode candidate with raw number 7 and no name. -/
def epLive7 : Episode := { number := 7, name := "", is_live := true }

/-- A pre-air (not live) episode candidate. -/
def epNotLive : Episode := { number := 3, name := "", is_live := false }

-- ### Characterization lemmas for the episode processor

/-- The composed contents of a publish attempt are the rendered title/body
pair, whether or not the submission happens or succeeds. -/
theorem create_reddit_post_contents (config : Config) (sv : ServicesEnv) (rc : RedditClient)
    (db : Database) (sho : Show) (stream : Stream) (episode : Episode) (submit : Bool) :
    (_create_reddit_post config sv rc db sho stream episode submit).contents =
      _create_post_contents config sv db sho stream episode := by
  by_cases hb : submit
  · simp only [_create_reddit_post, hb, if_true]
    cases rc.submit_text_post config.subreddit
        (_create_post_contents config sv db sho stream episode).1
        (_create_post_contents config sv db sho stream episode).2 <;> rfl
  · simp only [_create_reddit_post, hb, if_false, Bool.false_eq_true]

/-- A publish attempt with `submit = false` makes no submission call. -/
theorem create_reddit_post_no_submit (config : Config) (sv : ServicesEnv) (rc : RedditClient)
    (db : Database) (sho : Show) (stream : Stream) (episode : Episode) :
    (_create_reddit_post config sv rc db sho stream episode false).submit_calls = 0 := rfl

/-- Processor outcome on a non-live candidate. -/
theorem proc_not_live (config : Config) (sv : ServicesEnv) (rc : RedditClient)
    (db : Database) (sho : Show) (stream : Stream) (episode : Episode)
    (h : episode.is_live = false) :
    _process_new_episode config sv rc db sho stream episode =
      ⟨db, ProcState.notLive, episode, none, 0, [], none⟩ := by
  simp [_process_new_episode, h]

/-- Processor outcome on a live candidate whose canonical number is already
persisted. -/
theorem proc_seen (config : Config) (sv : ServicesEnv) (rc : RedditClient)
    (db : Database) (sho : Show) (stream : Stream) (episode : Episode)
    (h1 : episode.is_live = true)
    (h2 : stream_has_episode db stream (episode.number - stream.remote_offset) = true) :
    _process_new_episode config sv rc db sho stream episode =
      ⟨db, ProcState.alreadySeen,
        { episode with number := episode.number - stream.remote_offset },
        some (episode.number - stream.remote_offset), 0, [], none⟩ := by
  simp [_process_new_episode, h1, h2]

/-- Processor outcome on a fresh live candidate whose publish attempt returns
no URL. -/
theorem proc_failed (config : Config) (sv : ServicesEnv) (rc : RedditClient)
    (db : Database) (sho : Show) (stream : Stream) (episode : Episode)
    (h1 : episode.is_live = true)
    (h2 : stream_has_episode db stream (episode.number - stream.remote_offset) = false)
    (h3 : (_create_reddit_post config sv rc db sho stream
            { episode with number := episode.number - stream.remote_offset }
            (!config.debug)).post_url = none) :
    _process_new_episode config sv rc db sho stream episode =
      ⟨db, ProcState.failed,
        { episode with number := episode.number - stream.remote_offset },
        some (episode.number - stream.remote_offset),
        (_create_reddit_post config sv rc db sho stream
          { episode with number := episode.number - stream.remote_offset }
          (!config.debug)).submit_calls,
        [],
        some (_create_reddit_post config sv rc db sho stream
          { episode with number := episode.number - stream.remote_offset }
          (!config.debug)).contents⟩ := by
  rw [h1] at h3
  simp [_process_new_episode, h1, h2, h3]

/-- Processor outcome on a fresh live candidate whose publish attempt returns
a URL. -/
theorem proc_success (config : Config) (sv : ServicesEnv) (rc : RedditClient)
    (db : Database) (sho : Show) (stream : Stream) (episode : Episode) (url : String)
    (h1 : episode.is_live = true)
    (h2 : stream_has_episode db stream (episode.number - stream.remote_offset) = false)
    (h3 : (_create_reddit_post config sv rc db sho stream
            { episode with number := episode.number - stream.remote_offset }
            (!config.debug)).post_url = some url) :
    _process_new_episode config sv rc db sho stream episode =
      if sho.delayed then
        ⟨set_show_delayed
            (add_episode db stream.showId (episode.number - stream.remote_offset) url) sho false,
          ProcState.committed,
          { episode with number := episode.number - stream.remote_offset },
          some (episode.number - stream.remote_offset),
          (_create_reddit_post config sv rc db sho stream
            { episode with number := episode.number - stream.remote_offset }
            (!config.debug)).submit_calls,
          [Mutation.addEpisode stream.showId (episode.number - stream.remote_offset) url,
           Mutation.setShowDelayed sho.id false],
          some (_create_reddit_post config sv rc db sho stream
            { episode with number := episode.number - stream.remote_offset }
            (!config.debug)).contents⟩
      else
        ⟨add_episode db stream.showId (episode.number - stream.remote_offset) url,
          ProcState.committed,
          { episode with number := episode.number - stream.remote_offset },
          some (episode.number - stream.remote_offset),
          (_create_reddit_post config sv rc db sho stream
            { episode with number := episode.number - stream.remote_offset }
            (!config.debug)).submit_calls,
          [Mutation.addEpisode stream.showId (episode.number - stream.remote_offset) url],
          some (_create_reddit_post config sv rc db sho stream
            { episode with number := episode.number - stream.remote_offset }
            (!config.debug)).contents⟩ := by
  rw [h1] at h3
  by_cases hd : sho.delayed <;> simp [_process_new_episode, h1, h2, h3, hd]

/-- Adding the (stream's show, n) record makes the dedup query for n true. -/
theorem has_episode_after_add (db : Database) (stream : Stream) (n : Int) (url : String) :
    stream_has_episode (add_episode db stream.showId n url) stream n = true := by
  simp [stream_has_episode, add_episode]

/-- Setting a delayed flag does not affect the persisted episode records. -/
theorem has_episode_set_delayed (db : Database) (sho : Show) (b : Bool) (stream : Stream)
    (n : Int) :
    stream_has_episode (set_show_delayed db sho b) stream n = stream_has_episode db stream n :=
  rfl

/-- Store that already has the persisted record (show 1, number -4). -/
def db1 : Database := { db0 with episodes := [⟨1, -4, "u"⟩] }

-- ### Claim theorems about the episode processor

/-- C1: for a live candidate whose (show, canonical number) pair already has
a persisted record, the episode processor makes no publish call and no
persistence mutation; and after a first committed run, a second run on the
same inputs is such a no-op: it leaves persistence unchanged and never
reaches the publish path. -/
theorem C1_already_seen_idempotent (config : Config) (sv : ServicesEnv) (rc : RedditClient)
    (db : Database) (sho : Show) (stream : Stream) (episode : Episode)
    (hlive : episode.is_live = true) :
    (stream_has_episode db stream (episode.number - stream.remote_offset) = true →
      (_process_new_episode config sv rc db sho stream episode).db = db ∧
      (_process_new_episode config sv rc db sho stream episode).mutations = [] ∧
      (_process_new_episode config sv rc db sho stream episode).submitCalls = 0 ∧
      (_process_new_episode config sv rc db sho stream episode).state = ProcState.alreadySeen) ∧
    ((_process_new_episode config sv rc db sho stream episode).state = ProcState.committed →
      (_process_new_episode config sv rc
          (_process_new_episode config sv rc db sho stream episode).db
          sho stream episode).db =
        (_process_new_episode config sv rc db sho stream episode).db ∧
      (_process_new_episode config sv rc
          (_process_new_episode config sv rc db sho stream episode).db
          sho stream episode).mutations = [] ∧
      (_process_new_episode config sv rc
          (_process_new_episode config sv rc db sho stream episode).db
          sho stream episode).submitCalls = 0 ∧
      (_process_new_episode config sv rc
          (_process_new_episode config sv rc db sho stream episode).db
          sho stream episode).state = ProcState.alreadySeen) := by
  constructor
  · intro h2
    rw [proc_seen config sv rc db sho stream episode hlive h2]
    exact ⟨rfl, rfl, rfl, rfl⟩
  · intro hc
    by_cases h2 : stream_has_episode db stream (episode.number - stream.remote_offset) = true
    · rw [proc_seen config sv rc db sho stream episode hlive h2] at hc
      simp at hc
    · have h2f : stream_has_episode db stream (episode.number - stream.remote_offset) = false :=
        Bool.not_eq_true _ ▸ eq_false_of_ne_true h2
      cases h3 : (_create_reddit_post config sv rc db sho stream
          { episode with number := episode.number - stream.remote_offset }
          (!config.debug)).post_url with
      | none =>
        rw [proc_failed config sv rc db sho stream episode hlive h2f h3] at hc
        simp at hc
      | some url =>
        have hkey := proc_success config sv rc db sho stream episode url hlive h2f h3
        rw [hkey]
        by_cases hd : sho.delayed
        · simp only [hd, if_true]
          have hs2 : stream_has_episode
              (set_show_delayed
                (add_episode db stream.showId (episode.number - stream.remote_offset) url)
                sho false)
              stream (episode.number - stream.remote_offset) = true := by
            rw [has_episode_set_delayed]
            exact has_episode_after_add db stream (episode.number - stream.remote_offset) url
          rw [proc_seen config sv rc _ sho stream episode hlive hs2]
          exact ⟨rfl, rfl, rfl, rfl⟩
        · simp only [hd, if_false, Bool.false_eq_true]
          have hs2 : stream_has_episode
              (add_episode db stream.showId (episode.number - stream.remote_offset) url)
              stream (episode.number - stream.remote_offset) = true :=
            has_episode_after_add db stream (episode.number - stream.remote_offset) url
          rw [proc_seen config sv rc _ sho stream episode hlive hs2]
          exact ⟨rfl, rfl, rfl, rfl⟩

/-- Witness for C1: with a persisted (1, -4) record the processor is a no-op,
and after a committed first run over the empty store a second run ends
already-seen with persistence unchanged. -/
theorem C1_already_seen_idempotent_witness :
    (_process_new_episode cfg0 svQuiet reddit0 db1 showA streamA epLive).db = db1 ∧
    (_process_new_episode cfg0 svQuiet reddit0
        (_process_new_episode cfg0 svQuiet reddit0 db0 showA streamA epLive).db
        showA streamA epLive).db =
      (_process_new_episode cfg0 svQuiet reddit0 db0 showA streamA epLive).db ∧
    (_process_new_episode cfg0 svQuiet reddit0
        (_process_new_episode cfg0 svQuiet reddit0 db0 showA streamA epLive).db
        showA streamA epLive).state = ProcState.alreadySeen :=
  ⟨((C1_already_seen_idempotent cfg0 svQuiet reddit0 db1 showA streamA epLive rfl).1
      (by decide)).1,
   ((C1_already_seen_idempotent cfg0 svQuiet reddit0 db0 showA streamA epLive rfl).2
      (by decide)).1,
   ((C1_already_seen_idempotent cfg0 svQuiet reddit0 db0 showA streamA epLive rfl).2
      (by decide)).2.2.2⟩

/-- C2: for a live, not-already-seen candidate whose publish step returns no
post URL, the processor performs no persistence mutation: the store is
unchanged, no mutation is issued, the run terminates failed, and the dedup
query for that canonical number is still false afterwards. -/
theorem C2_publish_failure_no_mutation (config : Config) (sv : ServicesEnv) (rc : RedditClient)
    (db : Database) (sho : Show) (stream : Stream) (episode : Episode)
    (h1 : episode.is_live = true)
    (h2 : stream_has_episode db stream (episode.number - stream.remote_offset) = false)
    (h3 : (_create_reddit_post config sv rc db sho stream
            { episode with number := episode.number - stream.remote_offset }
            (!config.debug)).post_url = none) :
    (_process_new_episode config sv rc db sho stream episode).db = db ∧
    (_process_new_episode config sv rc db sho stream episode).mutations = [] ∧
    (_process_new_episode config sv rc db sho stream episode).state = ProcState.failed ∧
    stream_has_episode (_process_new_episode config sv rc db sho stream episode).db
      stream (episode.number - stream.remote_offset) = false := by
  rw [proc_failed config sv rc db sho stream episode h1 h2 h3]
  exact ⟨rfl, rfl, rfl, h2⟩

/-- Witness for C2: a publish client returning no handle leaves the store
untouched and the canonical number still unseen. -/
theorem C2_publish_failure_no_mutation_witness :
    (_process_new_episode cfg0 svQuiet redditNone db0 showA streamA epLive).db = db0 ∧
    stream_has_episode (_process_new_episode cfg0 svQuiet redditNone db0 showA streamA epLive).db
      streamA (epLive.number - streamA.remote_offset) = false :=
  have h := C2_publish_failure_no_mutation cfg0 svQuiet redditNone db0 showA streamA epLive
    rfl (by decide) (by decide)
  ⟨h.1, h.2.2.2⟩

/-- C3: for a candidate with is_live = false the processor makes no publish
attempt and no persistence mutation, issues no dedup query, composes
nothing, and terminates not-live. -/
theorem C3_not_live_frame (config : Config) (sv : ServicesEnv) (rc : RedditClient)
    (db : Database) (sho : Show) (stream : Stream) (episode : Episode)
    (h : episode.is_live = false) :
    (_process_new_episode config sv rc db sho stream episode).db = db ∧
    (_process_new_episode config sv rc db sho stream episode).mutations = [] ∧
    (_process_new_episode config sv rc db sho stream episode).submitCalls = 0 ∧
    (_process_new_episode config sv rc db sho stream episode).dedupQuery = none ∧
    (_process_new_episode config sv rc db sho stream episode).composed = none ∧
    (_process_new_episode config sv rc db sho stream episode).state = ProcState.notLive := by
  rw [proc_not_live config sv rc db sho stream episode h]
  exact ⟨rfl, rfl, rfl, rfl, rfl, rfl⟩

/-- Witness for C3: a pre-air candidate leaves the store untouched. -/
theorem C3_not_live_frame_witness :
    (_process_new_episode cfg0 svQuiet reddit0 db0 showA streamA epNotLive).db = db0 ∧
    (_process_new_episode cfg0 svQuiet reddit0 db0 showA streamA epNotLive).dedupQuery = none :=
  have h := C3_not_live_frame cfg0 svQuiet reddit0 db0 showA streamA epNotLive rfl
  ⟨h.1, h.2.2.2.1⟩

/-- C4: for a live, not-already-seen candidate whose publish returns a
non-empty post URL, the processor persists exactly the (stream's show,
canonical number, post URL) record, and clears the show's delayed flag if
and only if it was set. -/
theorem C4_commit_persists (config : Config) (sv : ServicesEnv) (rc : RedditClient)
    (db : Database) (sho : Show) (stream : Stream) (episode : Episode) (url : String)
    (h1 : episode.is_live = true)
    (h2 : stream_has_episode db stream (episode.number - stream.remote_offset) = false)
    (h3 : (_create_reddit_post config sv rc db sho stream
            { episode with number := episode.number - stream.remote_offset }
            (!config.debug)).post_url = some url)
    (_hne : url ≠ "") :
    (_process_new_episode config sv rc db sho stream episode).state = ProcState.committed ∧
    (_process_new_episode config sv rc db sho stream episode).db =
      (if sho.delayed then
        set_show_delayed
          (add_episode db stream.showId (episode.number - stream.remote_offset) url) sho false
      else add_episode db stream.showId (episode.number - stream.remote_offset) url) ∧
    (_process_new_episode config sv rc db sho stream episode).mutations =
      Mutation.addEpisode stream.showId (episode.number - stream.remote_offset) url ::
        (if sho.delayed then [Mutation.setShowDelayed sho.id false] else []) := by
  rw [proc_success config sv rc db sho stream episode url h1 h2 h3]
  by_cases hd : sho.delayed <;> simp [hd]

/-- Witness for C4: a successful publish over the empty store persists
(1, -4, short/p1) and clears the delayed flag, which was set. -/
theorem C4_commit_persists_witness :
    (_process_new_episode cfg0 svQuiet reddit0 db0 showA streamA epLive).state =
      ProcState.committed ∧
    (_process_new_episode cfg0 svQuiet reddit0 db0 showA streamA epLive).db =
      set_show_delayed
        (add_episode db0 streamA.showId (epLive.number - streamA.remote_offset) "short/p1")
        showA false :=
  have h := C4_commit_persists cfg0 svQuiet reddit0 db0 showA streamA epLive "short/p1"
    rfl (by decide) (by decide) (by decide)
  ⟨h.1, by rw [h.2.1]; decide⟩

/-- C5: for every live candidate, the number used for the dedup query, the
adjusted candidate, and any persisted record is the raw number minus the
stream's remote offset (exact integer arithmetic), and the display number
injected by the post composer is that canonical number plus the stream's
display offset. -/
theorem C5_offset_arithmetic (config : Config) (sv : ServicesEnv) (rc : RedditClient)
    (db : Database) (sho : Show) (stream : Stream) (episode : Episode)
    (h : episode.is_live = true) :
    (_process_new_episode config sv rc db sho stream episode).dedupQuery =
      some (episode.number - stream.remote_offset) ∧
    (_process_new_episode config sv rc db sho stream episode).episode.number =
      episode.number - stream.remote_offset ∧
    ((_process_new_episode config sv rc db sho stream episode).mutations.all fun m =>
      match m with
      | Mutation.addEpisode _ nn _ => nn == episode.number - stream.remote_offset
      | Mutation.setShowDelayed _ _ => true) = true ∧
    _display_num (_process_new_episode config sv rc db sho stream episode).episode stream =
      (episode.number - stream.remote_offset) + stream.display_offset := by
  by_cases h2 : stream_has_episode db stream (episode.number - stream.remote_offset) = true
  · rw [proc_seen config sv rc db sho stream episode h h2]
    simp [_display_num]
  · have h2f : stream_has_episode db stream (episode.number - stream.remote_offset) = false :=
      Bool.not_eq_true _ ▸ eq_false_of_ne_true h2
    cases h3 : (_create_reddit_post config sv rc db sho stream
        { episode with number := episode.number - stream.remote_offset }
        (!config.debug)).post_url with
    | none =>
      rw [proc_failed config sv rc db sho stream episode h h2f h3]
      simp [_display_num]
    | some url =>
      rw [proc_success config sv rc db sho stream episode url h h2f h3]
      by_cases hd : sho.delayed <;> simp [hd, _display_num]

/-- Witness for C5: raw number 1 with remote offset 5 gives canonical -4,
and the composer display number is -4 + 2. -/
theorem C5_offset_arithmetic_witness :
    (_process_new_episode cfg0 svQuiet reddit0 db0 showA streamA epLive).dedupQuery =
      some (epLive.number - streamA.remote_offset) ∧
    _display_num (_process_new_episode cfg0 svQuiet reddit0 db0 showA streamA epLive).episode
        streamA =
      (epLive.number - streamA.remote_offset) + streamA.display_offset :=
  have h := C5_offset_arithmetic cfg0 svQuiet reddit0 db0 showA streamA epLive rfl
  ⟨h.1, h.2.2.2⟩

/-- C10: for every live candidate the processor overwrites the candidate's
number field with the canonical number before any later step: the adjusted
candidate carries only the canonical number, the dedup query and every
persisted record use it, and the composed post text is rendered from the
adjusted candidate. -/
theorem C10_number_overwritten (config : Config) (sv : ServicesEnv) (rc : RedditClient)
    (db : Database) (sho : Show) (stream : Stream) (episode : Episode)
    (h : episode.is_live = true) :
    (_process_new_episode config sv rc db sho stream episode).episode =
      { episode with number := episode.number - stream.remote_offset } ∧
    (_process_new_episode config sv rc db sho stream episode).dedupQuery =
      some (episode.number - stream.remote_offset) ∧
    ((_process_new_episode config sv rc db sho stream episode).mutations.all fun m =>
      match m with
      | Mutation.addEpisode s nn _ =>
        nn == episode.number - stream.remote_offset && s == stream.showId
      | Mutation.setShowDelayed _ _ => true) = true ∧
    (stream_has_episode db stream (episode.number - stream.remote_offset) = false →
      (_process_new_episode config sv rc db sho stream episode).composed =
        some (_create_post_contents config sv db sho stream
          { episode with number := episode.number - stream.remote_offset })) := by
  by_cases h2 : stream_has_episode db stream (episode.number - stream.remote_offset) = true
  · rw [proc_seen config sv rc db sho stream episode h h2]
    simp [h2]
  · have h2f : stream_has_episode db stream (episode.number - stream.remote_offset) = false :=
      Bool.not_eq_true _ ▸ eq_false_of_ne_true h2
    cases h3 : (_create_reddit_post config sv rc db sho stream
        { episode with number := episode.number - stream.remote_offset }
        (!config.debug)).post_url with
    | none =>
      rw [proc_failed config sv rc db sho stream episode h h2f h3]
      simp [create_reddit_post_contents]
    | some url =>
      rw [proc_success config sv rc db sho stream episode url h h2f h3]
      by_cases hd : sho.delayed <;> simp [hd, create_reddit_post_contents]

/-- Witness for C10: the adjusted candidate number is -4 and the composed
contents are those of the adjusted candidate. -/
theorem C10_number_overwritten_witness :
    (_process_new_episode cfg0 svQuiet reddit0 db0 showA streamA epLive).episode =
      { epLive with number := epLive.number - streamA.remote_offset } ∧
    (_process_new_episode cfg0 svQuiet reddit0 db0 showA streamA epLive).composed =
      some (_create_post_contents cfg0 svQuiet db0 showA streamA
        { epLive with number := epLive.number - streamA.remote_offset }) :=
  have h := C10_number_overwritten cfg0 svQuiet reddit0 db0 showA streamA epLive rfl
  ⟨h.1, h.2.2.2 (by decide)⟩

-- ### Lemmas about the template renderer

/-- Appending two strings concatenates their character data. -/
theorem string_data_append (a b : String) : (a ++ b).data = a.data ++ b.data := rfl

/-- String construction commutes with appending of character data. -/
theorem string_mk_append (l m : List Char) : String.mk l ++ String.mk m = String.mk (l ++ m) :=
  rfl

/-- A kwarg whose key is the name of no replacement field leaves the field
substitution unchanged. -/
theorem substField_irrelevant (k v : String) (kwargs : List (String × String))
    (field : List Char)
    (h : String.mk (field.takeWhile (fun c => c != '!' && c != ':')) ≠ k) :
    substField ((k, v) :: kwargs) field = substField kwargs field := by
  have hl : lookupKey ((k, v) :: kwargs)
        (String.mk (field.takeWhile (fun c => c != '!' && c != ':'))) =
      lookupKey kwargs (String.mk (field.takeWhile (fun c => c != '!' && c != ':'))) := by
    simp only [lookupKey]
    rw [if_neg (fun hh => h hh.symm)]
  simp only [substField, hl]

/-- A kwarg whose key is looked up by no replacement field of the scan does
not change the scan's output. -/
theorem fmtCharsFull_irrelevant (k v : String) (kwargs : List (String × String)) :
    ∀ (flag : Option (List Char)) (s : List Char), k ∉ fieldNames flag s →
      fmtCharsFull ((k, v) :: kwargs) flag s = fmtCharsFull kwargs flag s := by
  intro flag s
  induction flag, s using fmtCharsFull.induct kwargs with
  | case1 => intro _; rfl
  | case2 rest ih =>
    intro h
    rw [fieldNames.eq_2] at h
    rw [fmtCharsFull.eq_2, fmtCharsFull.eq_2, ih h]
  | case3 rest ih =>
    intro h
    rw [fieldNames.eq_3] at h
    rw [fmtCharsFull.eq_3, fmtCharsFull.eq_3, ih h]
  | case4 rest h1 ih =>
    intro h
    rw [fieldNames.eq_4 _ h1] at h
    rw [fmtCharsFull.eq_4 _ _ h1, fmtCharsFull.eq_4 _ _ h1, ih h]
  | case5 tail h1 =>
    intro _
    rw [fmtCharsFull.eq_5 _ _ h1, fmtCharsFull.eq_5 _ _ h1]
  | case6 c rest h1 h2 h3 h4 ih =>
    intro h
    rw [fieldNames.eq_5 _ _ h1 h2 h3] at h
    rw [fmtCharsFull.eq_6 _ _ _ h1 h2 h3 h4, fmtCharsFull.eq_6 _ _ _ h1 h2 h3 h4, ih h]
  | case7 val => intro _; rfl
  | case8 acc rest hsub =>
    intro h
    rw [fieldNames.eq_7, List.mem_cons, not_or] at h
    rw [fmtCharsFull.eq_8, fmtCharsFull.eq_8,
      substField_irrelevant k v kwargs acc.reverse (fun hh => h.1 hh.symm), hsub]
  | case9 acc rest obj2 hsub ih =>
    intro h
    rw [fieldNames.eq_7, List.mem_cons, not_or] at h
    rw [fmtCharsFull.eq_8, fmtCharsFull.eq_8,
      substField_irrelevant k v kwargs acc.reverse (fun hh => h.1 hh.symm), hsub, ih h.2]
  | case10 acc c rest h1 ih =>
    intro h
    rw [fieldNames.eq_8 _ _ _ h1] at h
    rw [fmtCharsFull.eq_9 _ _ _ _ h1, fmtCharsFull.eq_9 _ _ _ _ h1, ih h]

/-- Scanning a field (no closing brace inside) up to its closing brace
substitutes the collected field and scans on. -/
theorem fmtCharsFull_collect (kwargs : List (String × String)) :
    ∀ (nm acc rest : List Char), '}' ∉ nm →
      fmtCharsFull kwargs (some acc) (nm ++ '}' :: rest) =
        (match substField kwargs (acc.reverse ++ nm) with
         | none => none
         | some out => Option.map (fun l => out ++ l) (fmtCharsFull kwargs none rest)) := by
  intro nm
  induction nm with
  | nil => intro acc rest _; rw [List.nil_append, fmtCharsFull.eq_8, List.append_nil]
  | cons c cs ih =>
    intro acc rest h
    rw [List.mem_cons, not_or] at h
    have hc : c = '}' → False := fun hh => h.1 hh.symm
    rw [List.cons_append, fmtCharsFull.eq_9 _ _ _ _ hc, ih (c :: acc) rest h.2]
    have hrw : (c :: acc).reverse ++ cs = acc.reverse ++ (c :: cs) := by simp
    rw [hrw]

/-- A brace-free nonempty field at the head of the template is substituted
as one replacement field. -/
theorem fmtCharsFull_enter (kwargs : List (String × String)) (c : Char) (cs rest : List Char)
    (h2 : '{' ∉ c :: cs) (h3 : '}' ∉ c :: cs) :
    fmtCharsFull kwargs none ('{' :: ((c :: cs) ++ '}' :: rest)) =
      (match substField kwargs (c :: cs) with
       | none => none
       | some out => Option.map (fun l => out ++ l) (fmtCharsFull kwargs none rest)) := by
  rw [List.mem_cons, not_or] at h2
  have hstep : fmtCharsFull kwargs none ('{' :: ((c :: cs) ++ '}' :: rest)) =
      fmtCharsFull kwargs (some []) ((c :: cs) ++ '}' :: rest) := by
    apply fmtCharsFull.eq_4
    intro r1 hr
    rw [List.cons_append] at hr
    exact h2.1 (List.head_eq_of_cons_eq hr).symm
  rw [hstep, fmtCharsFull_collect kwargs _ _ _ h3]
  have hrw : ([] : List Char).reverse ++ (c :: cs) = c :: cs := by simp
  rw [hrw]

/-- A list all of whose elements satisfy a predicate is its own longest
matching prefix. -/
theorem takeWhile_all {α : Type} (p : α → Bool) :
    ∀ l : List α, (∀ c ∈ l, p c = true) → List.takeWhile p l = l := by
  intro l
  induction l with
  | nil => intro _; rfl
  | cons a rest ih =>
    intro h
    rw [List.takeWhile_cons_of_pos (h a (List.mem_cons_self a rest)),
      ih (fun c hc => h c (List.mem_cons_of_mem a hc))]

/-- A plain field name (nonempty, not all digits, free of braces, conversion
and spec markers, and path characters) is substituted as the looked-up value
or the literal braced echo, and never raises. -/
theorem substField_plain (kwargs : List (String × String)) (nm : List Char)
    (h1 : nm ≠ []) (h2 : '{' ∉ nm) (h3 : '}' ∉ nm) (h4 : '!' ∉ nm) (h5 : ':' ∉ nm)
    (h6 : '.' ∉ nm) (h7 : '[' ∉ nm) (h8 : ']' ∉ nm) (h9 : nm.all Char.isDigit = false) :
    substField kwargs nm =
      some (match lookupKey kwargs (String.mk nm) with
            | some v => v.data
            | none => '{' :: (nm ++ ['}'])) := by
  have htake : nm.takeWhile (fun c => c != '!' && c != ':') = nm := by
    apply takeWhile_all
    intro c hc
    have hb : c ≠ '!' := fun hh => h4 (hh ▸ hc)
    have hcn : c ≠ ':' := fun hh => h5 (hh ▸ hc)
    simp [hb, hcn]
  have hempty : nm.isEmpty = false := by
    cases nm with
    | nil => exact absurd rfl h1
    | cons a l => rfl
  have hany : nm.any (fun c => c == '.' || c == '[' || c == ']' || c == '{') = false := by
    rw [List.any_eq_false]
    intro c hc hcontra
    simp only [Bool.or_eq_true, beq_iff_eq] at hcontra
    rcases hcontra with ((hh | hh) | hh) | hh
    · exact h6 (hh ▸ hc)
    · exact h7 (hh ▸ hc)
    · exact h8 (hh ▸ hc)
    · exact h2 (hh ▸ hc)
  simp only [substField, htake, List.drop_length, hempty, h9, hany, Bool.false_eq_true,
    if_false]

/-- A plain-name placeholder whose name has no supplied value is echoed
verbatim, and the render does not raise on it. -/
theorem safe_format_full_absent (nm rest : String) (kwargs : List (String × String))
    (h1 : nm.data ≠ []) (h2 : '{' ∉ nm.data) (h3 : '}' ∉ nm.data) (h4 : '!' ∉ nm.data)
    (h5 : ':' ∉ nm.data) (h6 : '.' ∉ nm.data) (h7 : '[' ∉ nm.data) (h8 : ']' ∉ nm.data)
    (h9 : nm.data.all Char.isDigit = false)
    (hlk : lookupKey kwargs nm = none) :
    safe_format_full ("\x7b" ++ nm ++ "\x7d" ++ rest) kwargs =
      Option.map (fun t => "\x7b" ++ nm ++ "\x7d" ++ t) (safe_format_full rest kwargs) := by
  cases hnm : nm.data with
  | nil => exact absurd hnm h1
  | cons c cs =>
    have h2' : '{' ∉ c :: cs := hnm ▸ h2
    have h3' : '}' ∉ c :: cs := hnm ▸ h3
    have hdata : ("\x7b" ++ nm ++ "\x7d" ++ rest).data = '{' :: ((c :: cs) ++ '}' :: rest.data) := by
      rw [string_data_append, string_data_append, string_data_append, hnm]
      simp
    have hsubst : substField kwargs (c :: cs) = some ('{' :: ((c :: cs) ++ ['}'])) := by
      rw [← hnm, substField_plain kwargs nm.data h1 h2 h3 h4 h5 h6 h7 h8 h9]
      rw [show String.mk nm.data = nm from rfl, hlk]
    show Option.map String.mk (fmtCharsFull kwargs none ("\x7b" ++ nm ++ "\x7d" ++ rest).data) = _
    rw [hdata, fmtCharsFull_enter kwargs c cs rest.data h2' h3', hsubst]
    simp only [safe_format_full]
    cases hF : fmtCharsFull kwargs none rest.data with
    | none => rfl
    | some l =>
      show some (String.mk (('{' :: ((c :: cs) ++ ['}'])) ++ l)) =
        some ("\x7b" ++ nm ++ "\x7d" ++ String.mk l)
      have hrhs : "\x7b" ++ nm ++ "\x7d" ++ String.mk l =
          String.mk (('{' :: ((c :: cs) ++ ['}'])) ++ l) := by
        rw [show ("\x7b" : String) = String.mk ['{'] from rfl,
          show ("\x7d" : String) = String.mk ['}'] from rfl,
          show nm = String.mk nm.data from rfl, hnm,
          string_mk_append, string_mk_append, string_mk_append]
        simp
      rw [hrhs]

/-- A plain-name placeholder whose name has a supplied value is replaced by
it, and the render does not raise on it. -/
theorem safe_format_full_present (nm rest v : String) (kwargs : List (String × String))
    (h1 : nm.data ≠ []) (h2 : '{' ∉ nm.data) (h3 : '}' ∉ nm.data) (h4 : '!' ∉ nm.data)
    (h5 : ':' ∉ nm.data) (h6 : '.' ∉ nm.data) (h7 : '[' ∉ nm.data) (h8 : ']' ∉ nm.data)
    (h9 : nm.data.all Char.isDigit = false)
    (hlk : lookupKey kwargs nm = some v) :
    safe_format_full ("\x7b" ++ nm ++ "\x7d" ++ rest) kwargs =
      Option.map (fun t => v ++ t) (safe_format_full rest kwargs) := by
  cases hnm : nm.data with
  | nil => exact absurd hnm h1
  | cons c cs =>
    have h2' : '{' ∉ c :: cs := hnm ▸ h2
    have h3' : '}' ∉ c :: cs := hnm ▸ h3
    have hdata : ("\x7b" ++ nm ++ "\x7d" ++ rest).data = '{' :: ((c :: cs) ++ '}' :: rest.data) := by
      rw [string_data_append, string_data_append, string_data_append, hnm]
      simp
    have hsubst : substField kwargs (c :: cs) = some v.data := by
      rw [← hnm, substField_plain kwargs nm.data h1 h2 h3 h4 h5 h6 h7 h8 h9]
      rw [show String.mk nm.data = nm from rfl, hlk]
    show Option.map String.mk (fmtCharsFull kwargs none ("\x7b" ++ nm ++ "\x7d" ++ rest).data) = _
    rw [hdata, fmtCharsFull_enter kwargs c cs rest.data h2' h3', hsubst]
    simp only [safe_format_full]
    cases hF : fmtCharsFull kwargs none rest.data with
    | none => rfl
    | some l => rfl

/-- A supplied value whose key names no replacement field of the template
leaves the rendering unchanged. -/
theorem safe_format_full_unused (s k v : String) (kwargs : List (String × String))
    (h : k ∉ fieldNames none s.data) :
    safe_format_full s ((k, v) :: kwargs) = safe_format_full s kwargs := by
  show Option.map String.mk _ = Option.map String.mk _
  rw [fmtCharsFull_irrelevant k v kwargs none s.data h]

/-- C7 counterexample: safe_format does not leave every absent-name
placeholder verbatim instead of raising.  With a empty mapping, the field
with format spec d raises (the render produces no output at all) rather than
echoing, the field with spec >5 renders as the padded echo, not the verbatim
placeholder text, and the field with conversion r renders as the quoted
echo. -/
theorem C7_safe_format_counterexample :
    safe_format_full "{a:d}" [] = none ∧
    safe_format_full "{a:>5}" [] = some "  {a}" ∧
    safe_format_full "{a:>5}" [] ≠ some "{a:>5}" ∧
    safe_format_full "{a!r}" [] = some "'{a}'" ∧
    safe_format_full "{a!r}" [] ≠ some "{a!r}" := by decide

/-- C7 amended: for replacement fields that are plain names (no conversion,
no format spec, no attribute or index path), safe_format substitutes each
placeholder whose name is in the supplied mapping, leaves each placeholder
whose name is absent verbatim in the output instead of raising, and silently
ignores supplied values with no matching field anywhere in the template; in
particular formatting "{a} and {b}" with only a = x gives "x and {b}".
Fields carrying a conversion or format spec instead have str.format's
machinery applied to the looked-up or echoed value, which can raise (see the
counterexample). -/
theorem C7_safe_format_plain_fields :
    (∀ (s k v : String) (kwargs : List (String × String)),
      k ∉ fieldNames none s.data →
      safe_format_full s ((k, v) :: kwargs) = safe_format_full s kwargs) ∧
    (∀ (nm rest : String) (kwargs : List (String × String)),
      nm.data ≠ [] → '{' ∉ nm.data → '}' ∉ nm.data → '!' ∉ nm.data → ':' ∉ nm.data →
      '.' ∉ nm.data → '[' ∉ nm.data → ']' ∉ nm.data → nm.data.all Char.isDigit = false →
      lookupKey kwargs nm = none →
      safe_format_full ("\x7b" ++ nm ++ "\x7d" ++ rest) kwargs =
        Option.map (fun t => "\x7b" ++ nm ++ "\x7d" ++ t) (safe_format_full rest kwargs)) ∧
    (∀ (nm rest v : String) (kwargs : List (String × String)),
      nm.data ≠ [] → '{' ∉ nm.data → '}' ∉ nm.data → '!' ∉ nm.data → ':' ∉ nm.data →
      '.' ∉ nm.data → '[' ∉ nm.data → ']' ∉ nm.data → nm.data.all Char.isDigit = false →
      lookupKey kwargs nm = some v →
      safe_format_full ("\x7b" ++ nm ++ "\x7d" ++ rest) kwargs =
        Option.map (fun t => v ++ t) (safe_format_full rest kwargs)) ∧
    safe_format_full "{a} and {b}" [("a", "x")] = some "x and {b}" :=
  ⟨safe_format_full_unused, safe_format_full_absent, safe_format_full_present, by decide⟩

/-- Witness for C7 amended: an unused value is ignored, a missing plain
placeholder is echoed without raising, a present plain placeholder is
substituted, and the canonical example renders as specified. -/
theorem C7_safe_format_plain_fields_witness :
    safe_format_full "{a} and {b}" [("z", "9"), ("a", "x")] =
      safe_format_full "{a} and {b}" [("a", "x")] ∧
    safe_format_full ("\x7b" ++ "b" ++ "\x7d" ++ "!") [] =
      Option.map (fun t => "\x7b" ++ "b" ++ "\x7d" ++ t) (safe_format_full "!" []) ∧
    safe_format_full ("\x7b" ++ "a" ++ "\x7d" ++ "!") [("a", "x")] =
      Option.map (fun t => "x" ++ t) (safe_format_full "!" [("a", "x")]) ∧
    safe_format_full "{a} and {b}" [("a", "x")] = some "x and {b}" :=
  ⟨C7_safe_format_plain_fields.1 "{a} and {b}" "z" "9" [("a", "x")] (by decide),
   C7_safe_format_plain_fields.2.1 "b" "!" [] (by decide) (by decide) (by decide) (by decide)
     (by decide) (by decide) (by decide) (by decide) (by decide) rfl,
   C7_safe_format_plain_fields.2.2.1 "a" "!" "x" [("a", "x")] (by decide) (by decide)
     (by decide) (by decide) (by decide) (by decide) (by decide) (by decide) (by decide) rfl,
   C7_safe_format_plain_fields.2.2.2⟩

-- ### Claim theorems about the streams block

/-- A qualifying stream in the sense of the spec: active, with its service
enabled and flagged for inclusion in posts. -/
def qualifying (db : Database) (stream : Stream) : Bool :=
  stream.active &&
    (match get_service db stream.service with
     | some service => service.enabled && service.use_in_post
     | none => false)

/-- The per-service-template line rendered for one stream. -/
def renderStreamLine (sv : ServicesEnv) (db : Database) (formats : Formats)
    (stream : Stream) : String :=
  match get_service db stream.service with
  | some service =>
    safe_format formats.stream
      [("service_name", service.name),
       ("stream_link", (sv.get_service_handler service).get_stream_link stream)]
  | none => ""

/-- The stream-text loop keeps exactly the qualifying streams, each rendered
through the per-service template. -/
theorem streamTexts_eq (sv : ServicesEnv) (db : Database) (formats : Formats) :
    ∀ l : List Stream,
      streamTexts sv db formats l =
        (l.filter (qualifying db)).map (renderStreamLine sv db formats) := by
  intro l
  induction l with
  | nil => rfl
  | cons st rest ih =>
    by_cases ha : st.active
    · cases hs : get_service db st.service with
      | none => simp [streamTexts, qualifying, ha, hs, ih]
      | some service =>
        by_cases he : service.enabled && service.use_in_post
        · simp [streamTexts, qualifying, renderStreamLine, ha, hs, he, ih]
        · simp [streamTexts, qualifying, ha, hs, he, ih]
    · simp [streamTexts, qualifying, ha, ih]

/-- A show with one stream that does not qualify. -/
def showC : Show :=
  { id := 3, name := "C", enabled := true, has_source := false, delayed := false, key := "c" }

/-- An inactive stream of `showC`. -/
def streamC : Stream :=
  { showId := 3, service := 1, show_key := "c", remote_offset := 0, display_offset := 0,
    active := false }

/-- Store where `showC` has exactly one stream, which does not qualify. -/
def db6 : Database :=
  { shows := [showC], streams := [streamC], services := [svc1], episodes := [], links := [],
    sites := [] }

/-- Store where `showC` has no stream at all. -/
def dbNoStreams : Database :=
  { shows := [showC], streams := [], services := [svc1], episodes := [], links := [],
    sites := [] }

/-- C6 counterexample: for `showC` no qualifying stream exists (its only
stream is inactive), yet the streams block generator returns the empty
string, not the literal placeholder the claim requires. -/
theorem C6_streams_block_counterexample :
    (∀ st ∈ get_streams_for_show db6 showC, qualifying db6 st = false) ∧
    _gen_text_streams svQuiet db6 fmts0 showC = "" ∧
    _gen_text_streams svQuiet db6 fmts0 showC ≠ "*None*" := by decide

/-- C6 amended: the streams block generator returns the literal placeholder
exactly when the show has no streams at all; when the show has at least one
stream it returns the per-service-template-rendered lines of the qualifying
streams joined with newlines, which is the empty string (not the
placeholder) when streams exist but none qualifies. -/
theorem C6_streams_block_amended (sv : ServicesEnv) (db : Database) (formats : Formats)
    (sho : Show) :
    (get_streams_for_show db sho = [] → _gen_text_streams sv db formats sho = "*None*") ∧
    (get_streams_for_show db sho ≠ [] →
      _gen_text_streams sv db formats sho =
        String.intercalate "\n"
          (((get_streams_for_show db sho).filter (qualifying db)).map
            (renderStreamLine sv db formats))) := by
  constructor
  · intro h
    simp [_gen_text_streams, h]
  · intro h
    have hlen : 0 < (get_streams_for_show db sho).length := List.length_pos.mpr h
    simp only [_gen_text_streams, gt_iff_lt, hlen, if_true, streamTexts_eq]

/-- Witness for C6 amended: a show with no streams gets the placeholder, and
the spec's one-qualifying-stream example renders to its line. -/
theorem C6_streams_block_amended_witness :
    _gen_text_streams svQuiet dbNoStreams fmts0 showC = "*None*" ∧
    _gen_text_streams svQuiet db0 fmts0 showA = "S: L" := by
  constructor
  · exact (C6_streams_block_amended svQuiet dbNoStreams fmts0 showC).1 rfl
  · have h := (C6_streams_block_amended svQuiet db0 fmts0 showA).2 (by decide)
    rw [h]
    decide

-- ### Driver invariants

/-- Whether a discovery call returned in-band (did not raise). -/
def exceptOk : Except Unit (Option Episode) → Bool
  | Except.ok _ => true
  | Except.error _ => false

/-- Pointwise agreement of two show lists on identity and enabledness (the
only show fields the driver's lookups read). -/
def ShowsAgree : List Show → List Show → Prop :=
  List.Forall₂ (fun a b => a.id = b.id ∧ a.enabled = b.enabled)

/-- Agreement of two stores on streams and on show identity/enabledness. -/
def dbAgree (a b : Database) : Prop :=
  b.streams = a.streams ∧ ShowsAgree a.shows b.shows

/-- Show-list agreement is reflexive. -/
theorem showsAgree_refl (l : List Show) : ShowsAgree l l := by
  induction l with
  | nil => exact List.Forall₂.nil
  | cons a rest ih => exact List.Forall₂.cons ⟨rfl, rfl⟩ ih

/-- Show-list agreement is transitive. -/
theorem showsAgree_trans : ∀ {a b c : List Show}, ShowsAgree a b → ShowsAgree b c →
    ShowsAgree a c := by
  intro a b c h1
  induction h1 generalizing c with
  | nil => intro h2; cases h2; exact List.Forall₂.nil
  | cons hab h ih =>
    intro h2
    cases h2 with
    | cons hbc h' =>
      exact List.Forall₂.cons ⟨hab.1.trans hbc.1, hab.2.trans hbc.2⟩ (ih h')

/-- Store agreement is reflexive. -/
theorem dbAgree_refl (db : Database) : dbAgree db db := ⟨rfl, showsAgree_refl _⟩

/-- Store agreement is transitive. -/
theorem dbAgree_trans {a b c : Database} (h1 : dbAgree a b) (h2 : dbAgree b c) :
    dbAgree a c := ⟨h2.1.trans h1.1, showsAgree_trans h1.2 h2.2⟩

/-- Updating delayed flags preserves show identity and enabledness. -/
theorem showsAgree_map_delayed (l : List Show) (sid : Nat) (b : Bool) :
    ShowsAgree l (l.map (fun s => if s.id == sid then { s with delayed := b } else s)) := by
  induction l with
  | nil => exact List.Forall₂.nil
  | cons a rest ih =>
    refine List.Forall₂.cons ?_ ih
    by_cases h : a.id == sid <;> simp [h]

/-- The episode processor can only append episode records and clear delayed
flags, so its output store agrees with its input store. -/
theorem proc_dbAgree (config : Config) (sv : ServicesEnv) (rc : RedditClient)
    (db : Database) (sho : Show) (stream : Stream) (episode : Episode) :
    dbAgree db (_process_new_episode config sv rc db sho stream episode).db := by
  cases hlive : episode.is_live with
  | false =>
    rw [proc_not_live config sv rc db sho stream episode hlive]
    exact dbAgree_refl db
  | true =>
    by_cases h2 : stream_has_episode db stream (episode.number - stream.remote_offset) = true
    · rw [proc_seen config sv rc db sho stream episode hlive h2]
      exact dbAgree_refl db
    · have h2f : stream_has_episode db stream (episode.number - stream.remote_offset) = false :=
        Bool.not_eq_true _ ▸ eq_false_of_ne_true h2
      cases h3 : (_create_reddit_post config sv rc db sho stream
          { episode with number := episode.number - stream.remote_offset }
          (!config.debug)).post_url with
      | none =>
        rw [proc_failed config sv rc db sho stream episode hlive h2f h3]
        exact dbAgree_refl db
      | some url =>
        rw [proc_success config sv rc db sho stream episode url hlive h2f h3]
        by_cases hd : sho.delayed
        · simp only [hd, if_true]
          exact ⟨rfl, showsAgree_map_delayed db.shows sho.id false⟩
        · simp only [hd, if_false, Bool.false_eq_true]
          exact dbAgree_refl _

/-- Lookups by id in agreeing show lists succeed together and agree on
enabledness. -/
theorem find_show_agree : ∀ {l l' : List Show}, ShowsAgree l l' → ∀ sid : Nat,
    (l.find? (fun s => s.id == sid) = none ∧ l'.find? (fun s => s.id == sid) = none) ∨
    (∃ a b, l.find? (fun s => s.id == sid) = some a ∧
      l'.find? (fun s => s.id == sid) = some b ∧ a.id = b.id ∧ a.enabled = b.enabled) := by
  intro l l' h
  induction h with
  | nil => intro _; left; exact ⟨rfl, rfl⟩
  | @cons a b la lb hab _ ih =>
    intro sid
    by_cases hh : (a.id == sid) = true
    · right
      have hb : (b.id == sid) = true := by rw [← hab.1]; exact hh
      exact ⟨a, b, by simp [List.find?, hh], by simp [List.find?, hb], hab⟩
    · have hb : ¬(b.id == sid) = true := by rw [← hab.1]; exact hh
      rcases ih sid with ⟨h1, h2⟩ | ⟨x, y, h1, h2, h3⟩
      · left
        exact ⟨by simp [List.find?, hh, h1], by simp [List.find?, hb, h2]⟩
      · right
        exact ⟨x, y, by simp [List.find?, hh, h1], by simp [List.find?, hb, h2], h3⟩

/-- An enabled show found in the reference store is still found enabled in
any agreeing store. -/
theorem get_show_agree_enabled {dbA dbB : Database} (h : dbAgree dbA dbB) (st : Stream)
    (sh : Show) (hs : get_show dbA st = some sh) (he : sh.enabled = true) :
    ∃ sh', get_show dbB st = some sh' ∧ sh'.enabled = true := by
  rcases find_show_agree h.2 st.showId with ⟨hn, _⟩ | ⟨a, b, ha, hb, _, hen⟩
  · rw [get_show, hn] at hs; cases hs
  · rw [get_show, ha] at hs
    injection hs with hs
    exact ⟨b, hb, by rw [← hen, hs, he]⟩

/-- A show missing from the reference store is missing from any agreeing
store, and a disabled one stays disabled. -/
theorem get_show_agree_back {dbA dbB : Database} (h : dbAgree dbA dbB) (st : Stream)
    (sh' : Show) (hs : get_show dbB st = some sh') (he : sh'.enabled = true) :
    ∃ sh, get_show dbA st = some sh ∧ sh.enabled = true := by
  rcases find_show_agree h.2 st.showId with ⟨_, hn⟩ | ⟨a, b, ha, hb, _, hen⟩
  · rw [get_show, hn] at hs; cases hs
  · rw [get_show, hb] at hs
    injection hs with hs
    exact ⟨a, ha, by rw [hen, hs, he]⟩

/-- Agreeing stores hold the same streams of a service. -/
theorem get_streams_agree {dbA dbB : Database} (h : dbAgree dbA dbB) (service : Service) :
    get_streams_for_service dbB service = get_streams_for_service dbA service := by
  rw [get_streams_for_service, get_streams_for_service, h.1]

/-- If the handler raises on no stream, the stream loop completes without
aborting, keeps store agreement, only extends its trace, and emits a checked
event for every stream whose show is found enabled in the reference store. -/
theorem runStreams_ok (config : Config) (sv : ServicesEnv) (rc : RedditClient)
    (service : Service) (handler : ServiceHandler)
    (hok : ∀ st : Stream, exceptOk (handler.get_latest_episode st config.useragent) = true)
    (db0 : Database) :
    ∀ (streams : List Stream) (db : Database) (tr : List TraceEvent), dbAgree db0 db →
      (runStreams config sv rc service handler db tr streams).aborted = false ∧
      dbAgree db0 (runStreams config sv rc service handler db tr streams).db ∧
      (∀ ev ∈ tr, ev ∈ (runStreams config sv rc service handler db tr streams).trace) ∧
      (∀ st ∈ streams, ∀ sh : Show, get_show db0 st = some sh → sh.enabled = true →
        TraceEvent.checked service.id st.show_key ∈
          (runStreams config sv rc service handler db tr streams).trace) := by
  intro streams
  induction streams with
  | nil =>
    intro db tr hag
    exact ⟨rfl, hag, fun ev he => he, fun st hst => absurd hst (List.not_mem_nil st)⟩
  | cons st rest ih =>
    intro db tr hag
    cases hgs : get_show db st with
    | none =>
      have hstep : runStreams config sv rc service handler db tr (st :: rest) =
          runStreams config sv rc service handler db tr rest := by
        simp only [runStreams, hgs]
      rw [hstep]
      obtain ⟨h1, h2, h3, h4⟩ := ih db tr hag
      refine ⟨h1, h2, h3, ?_⟩
      intro st' hst' sh hsh he
      rcases List.mem_cons.mp hst' with heq | hmem
      · subst heq
        rcases get_show_agree_enabled hag st' sh hsh he with ⟨sh', hsh', _⟩
        rw [hgs] at hsh'
        cases hsh'
      · exact h4 st' hmem sh hsh he
    | some shF =>
      by_cases hen : shF.enabled = true
      · cases hcall : handler.get_latest_episode st config.useragent with
        | error e =>
          have hbad := hok st
          rw [hcall] at hbad
          simp [exceptOk] at hbad
        | ok oe =>
          cases oe with
          | none =>
            have hstep : runStreams config sv rc service handler db tr (st :: rest) =
                runStreams config sv rc service handler db
                  ((tr ++ [TraceEvent.checked service.id st.show_key]) ++
                    [TraceEvent.noEpisode service.id st.show_key]) rest := by
              simp only [runStreams, hgs, hen, hcall, if_true]
            rw [hstep]
            obtain ⟨h1, h2, h3, h4⟩ := ih db _ hag
            refine ⟨h1, h2, fun ev he' => h3 ev (by simp [he']), ?_⟩
            intro st' hst' sh hsh he
            rcases List.mem_cons.mp hst' with heq | hmem
            · subst heq
              exact h3 _ (by simp)
            · exact h4 st' hmem sh hsh he
          | some episode =>
            have hagP : dbAgree db0 (_process_new_episode config sv rc db shF st episode).db :=
              dbAgree_trans hag (proc_dbAgree config sv rc db shF st episode)
            have hstep : runStreams config sv rc service handler db tr (st :: rest) =
                runStreams config sv rc service handler
                  (_process_new_episode config sv rc db shF st episode).db
                  ((tr ++ [TraceEvent.checked service.id st.show_key]) ++
                    [TraceEvent.processed service.id shF.id
                      (_process_new_episode config sv rc db shF st episode).state]) rest := by
              simp only [runStreams, hgs, hen, hcall, if_true]
            rw [hstep]
            obtain ⟨h1, h2, h3, h4⟩ := ih _ _ hagP
            refine ⟨h1, h2, fun ev he' => h3 ev (by simp [he']), ?_⟩
            intro st' hst' sh hsh he
            rcases List.mem_cons.mp hst' with heq | hmem
            · subst heq
              exact h3 _ (by simp)
            · exact h4 st' hmem sh hsh he
      · have hstep : runStreams config sv rc service handler db tr (st :: rest) =
            runStreams config sv rc service handler db tr rest := by
          simp only [runStreams, hgs, hen, if_false, Bool.false_eq_true]
        rw [hstep]
        obtain ⟨h1, h2, h3, h4⟩ := ih db tr hag
        refine ⟨h1, h2, h3, ?_⟩
        intro st' hst' sh hsh he
        rcases List.mem_cons.mp hst' with heq | hmem
        · subst heq
          rcases get_show_agree_enabled hag st' sh hsh he with ⟨sh', hsh', hene⟩
          rw [hgs] at hsh'
          injection hsh' with hh
          exact absurd (hh ▸ hene) hen
        · exact h4 st' hmem sh hsh he

/-- Same for the outer service loop: with no handler raising, the whole
dedicated pass completes and checks every stream of every listed service
whose show is found enabled. -/
theorem runServices_ok (config : Config) (sv : ServicesEnv) (rc : RedditClient)
    (hok : ∀ (service : Service) (st : Stream),
      exceptOk ((sv.get_service_handler service).get_latest_episode st config.useragent) = true)
    (db0 : Database) :
    ∀ (svcs : List Service) (db : Database) (tr : List TraceEvent), dbAgree db0 db →
      (runServices config sv rc db tr svcs).aborted = false ∧
      dbAgree db0 (runServices config sv rc db tr svcs).db ∧
      (∀ ev ∈ tr, ev ∈ (runServices config sv rc db tr svcs).trace) ∧
      (∀ service ∈ svcs, ∀ st ∈ get_streams_for_service db0 service,
        ∀ sh : Show, get_show db0 st = some sh → sh.enabled = true →
          TraceEvent.checked service.id st.show_key ∈
            (runServices config sv rc db tr svcs).trace) := by
  intro svcs
  induction svcs with
  | nil =>
    intro db tr hag
    exact ⟨rfl, hag, fun ev he => he, fun s hs => absurd hs (List.not_mem_nil s)⟩
  | cons service rest ih =>
    intro db tr hag
    obtain ⟨r1ab, r1ag, r1tr, r1chk⟩ := runStreams_ok config sv rc service
      (sv.get_service_handler service) (hok service) db0
      (get_streams_for_service db service) db tr hag
    have hstep : runServices config sv rc db tr (service :: rest) =
        runServices config sv rc
          (runStreams config sv rc service (sv.get_service_handler service) db tr
            (get_streams_for_service db service)).db
          (runStreams config sv rc service (sv.get_service_handler service) db tr
            (get_streams_for_service db service)).trace rest := by
      simp only [runServices, r1ab, if_false, Bool.false_eq_true]
    rw [hstep]
    obtain ⟨h1, h2, h3, h4⟩ := ih _ _ r1ag
    refine ⟨h1, h2, fun ev he => h3 ev (r1tr ev he), ?_⟩
    intro s hs st hst sh hsh he
    rcases List.mem_cons.mp hs with heq | hmem
    · subst heq
      have hstreams : get_streams_for_service db s = get_streams_for_service db0 s :=
        get_streams_agree hag s
      exact h3 _ (r1chk st (by rw [hstreams]; exact hst) sh hsh he)
    · exact h4 s hmem st hst sh hsh he

/-- With no handler raising, the generic probe for one show completes
without aborting, keeps agreement, and only extends its trace. -/
theorem runGenericServices_ok (config : Config) (sv : ServicesEnv) (rc : RedditClient)
    (sho : Show) (stream : Stream)
    (hok : ∀ service : Service,
      exceptOk ((sv.get_service_handler service).get_latest_episode stream config.useragent) =
        true) :
    ∀ (svcs : List Service) (db0 db : Database) (tr : List TraceEvent), dbAgree db0 db →
      (runGenericServices config sv rc sho stream db tr svcs).aborted = false ∧
      dbAgree db0 (runGenericServices config sv rc sho stream db tr svcs).db ∧
      (∀ ev ∈ tr, ev ∈ (runGenericServices config sv rc sho stream db tr svcs).trace) := by
  intro svcs
  induction svcs with
  | nil => intro db0 db tr hag; exact ⟨rfl, hag, fun ev he => he⟩
  | cons service rest ih =>
    intro db0 db tr hag
    by_cases hg : (sv.get_service_handler service).is_generic = true
    · cases hcall : (sv.get_service_handler service).get_latest_episode stream config.useragent with
      | error e =>
        have hbad := hok service
        rw [hcall] at hbad
        simp [exceptOk] at hbad
      | ok oe =>
        cases oe with
        | none =>
          have hstep : runGenericServices config sv rc sho stream db tr (service :: rest) =
              runGenericServices config sv rc sho stream db
                (tr ++ [TraceEvent.genericTried sho.id service.id]) rest := by
            simp only [runGenericServices, hg, hcall, if_true]
          rw [hstep]
          obtain ⟨h1, h2, h3⟩ := ih db0 db _ hag
          exact ⟨h1, h2, fun ev he => h3 ev (by simp [he])⟩
        | some episode =>
          have hstep : runGenericServices config sv rc sho stream db tr (service :: rest) =
              ⟨(_process_new_episode config sv rc db sho stream episode).db,
                (tr ++ [TraceEvent.genericTried sho.id service.id]) ++
                  [TraceEvent.genericProcessed sho.id service.id
                    (_process_new_episode config sv rc db sho stream episode).state],
                false⟩ := by
            simp only [runGenericServices, hg, hcall, if_true]
          rw [hstep]
          exact ⟨rfl, dbAgree_trans hag (proc_dbAgree config sv rc db sho stream episode),
            fun ev he => by simp [he]⟩
    · have hstep : runGenericServices config sv rc sho stream db tr (service :: rest) =
          runGenericServices config sv rc sho stream db tr rest := by
        simp only [runGenericServices, hg, if_false, Bool.false_eq_true]
      rw [hstep]
      exact ih db0 db tr hag

/-- With no handler raising, the whole generic pass completes without
aborting, keeps agreement, and only extends its trace. -/
theorem runGenericPass_ok (config : Config) (sv : ServicesEnv) (rc : RedditClient)
    (enabled_services : List Service)
    (hok : ∀ (service : Service) (st : Stream),
      exceptOk ((sv.get_service_handler service).get_latest_episode st config.useragent) = true) :
    ∀ (shs : List Show) (db0 db : Database) (tr : List TraceEvent), dbAgree db0 db →
      (runGenericPass config sv rc enabled_services db tr shs).aborted = false ∧
      dbAgree db0 (runGenericPass config sv rc enabled_services db tr shs).db ∧
      (∀ ev ∈ tr, ev ∈ (runGenericPass config sv rc enabled_services db tr shs).trace) := by
  intro shs
  induction shs with
  | nil => intro db0 db tr hag; exact ⟨rfl, hag, fun ev he => he⟩
  | cons sho rest ih =>
    intro db0 db tr hag
    obtain ⟨g1, g2, g3⟩ := runGenericServices_ok config sv rc sho (Stream.from_show sho)
      (fun service => hok service (Stream.from_show sho)) enabled_services db0 db tr hag
    have hstep : runGenericPass config sv rc enabled_services db tr (sho :: rest) =
        runGenericPass config sv rc enabled_services
          (runGenericServices config sv rc sho (Stream.from_show sho) db tr
            enabled_services).db
          (runGenericServices config sv rc sho (Stream.from_show sho) db tr
            enabled_services).trace rest := by
      simp only [runGenericPass, g1, if_false, Bool.false_eq_true]
    rw [hstep]
    obtain ⟨h1, h2, h3⟩ := ih _ _ _ g2
    exact ⟨h1, h2, fun ev he => h3 ev (g3 ev he)⟩

-- ### Claim theorems about the discovery driver (failure isolation)

/-- Handler registry that raises exactly on streams keyed `a`. -/
def svErr : ServicesEnv :=
  { get_service_handler := fun s =>
      { name := s.name, is_generic := false
        get_latest_episode := fun st _ =>
          if st.show_key == "a" then Except.error () else Except.ok none
        get_stream_link := fun _ => "L" }
    get_link_handler := fun _ => { get_link := fun _ => "" } }

/-- C8 counterexample: the handler raises only for the first stream (keyed
`a`); its exception is not caught by the driver, the run aborts, and the
second enabled show/stream (keyed `b`) is never checked in that invocation,
although its own discovery call would have returned in-band. -/
theorem C8_driver_counterexample :
    (svErr.get_service_handler svc1).get_latest_episode streamB cfg0.useragent =
      Except.ok none ∧
    get_show db0 streamB = some showB ∧
    showB.enabled = true ∧
    (main cfg0 svErr reddit0 db0).aborted = true ∧
    TraceEvent.checked svc1.id streamB.show_key ∉ (main cfg0 svErr reddit0 db0).trace := by
  refine ⟨rfl, rfl, rfl, ?_, ?_⟩ <;> decide

/-- C8 amended: when every collaborator failure is signaled in-band (no
discovery call raises), a failure for one show/stream does not abort the
rest: the driver completes both passes, and every enabled show/stream of the
dedicated pass is still checked in the same invocation.  A raised handler
exception, by contrast, aborts the remainder of the run (see the
counterexample). -/
theorem C8_failure_isolation (config : Config) (sv : ServicesEnv) (rc : RedditClient)
    (db : Database)
    (hok : ∀ (service : Service) (st : Stream),
      exceptOk ((sv.get_service_handler service).get_latest_episode st config.useragent) = true) :
    (main config sv rc db).aborted = false ∧
    (∀ service ∈ get_services db true, ∀ st ∈ get_streams_for_service db service,
      ∀ sh : Show, get_show db st = some sh → sh.enabled = true →
        TraceEvent.checked service.id st.show_key ∈ (main config sv rc db).trace) := by
  obtain ⟨h1, h2, h3, h4⟩ := runServices_ok config sv rc hok db (get_services db true) db []
    (dbAgree_refl db)
  obtain ⟨g1, g2, g3⟩ := runGenericPass_ok config sv rc (get_services db true) hok
    (otherShows (runServices config sv rc db [] (get_services db true)).db)
    db (runServices config sv rc db [] (get_services db true)).db
    (runServices config sv rc db [] (get_services db true)).trace h2
  have hstep : main config sv rc db =
      runGenericPass config sv rc (get_services db true)
        (runServices config sv rc db [] (get_services db true)).db
        (runServices config sv rc db [] (get_services db true)).trace
        (otherShows (runServices config sv rc db [] (get_services db true)).db) := by
    simp only [main, h1, if_false, Bool.false_eq_true]
  rw [hstep]
  exact ⟨g1, fun service hs st hst sh hsh he => g3 _ (h4 service hs st hst sh hsh he)⟩

/-- Witness for C8 amended: with handlers that never raise, the driver run
over the two-stream store completes and the first stream is checked. -/
theorem C8_failure_isolation_witness :
    (main cfg0 svQuiet reddit0 db0).aborted = false ∧
    TraceEvent.checked svc1.id streamA.show_key ∈ (main cfg0 svQuiet reddit0 db0).trace := by
  have h := C8_failure_isolation cfg0 svQuiet reddit0 db0 (fun service st => rfl)
  exact ⟨h.1, h.2 svc1 (by decide) streamA (by decide) showA rfl rfl⟩

-- ### Claim theorems about the generic fallback pass

/-- Whether a service's handler returns an episode for the given stream. -/
def gHit (config : Config) (sv : ServicesEnv) (stream : Stream) (s : Service) : Bool :=
  match (sv.get_service_handler s).get_latest_episode stream config.useragent with
  | Except.ok (some _) => true
  | _ => false

/-- The generic services tried, in order, according to a trace. -/
def triedIds : List TraceEvent → List Nat
  | [] => []
  | TraceEvent.genericTried _ sid :: rest => sid :: triedIds rest
  | _ :: rest => triedIds rest

/-- The tried services of a concatenated trace. -/
theorem triedIds_append : ∀ a b : List TraceEvent, triedIds (a ++ b) =
    triedIds a ++ triedIds b := by
  intro a
  induction a with
  | nil => intro b; rfl
  | cons ev rest ih => intro b; cases ev <;> simp [triedIds, ih]

/-- Characterization of the generic probe loop for one show: it never
queries a non-generic handler, tries the generic handlers in list order, and
stops at the first one returning an episode, which is the one processed. -/
theorem runGenericServices_spec (config : Config) (sv : ServicesEnv) (rc : RedditClient)
    (sho : Show) (stream : Stream) :
    ∀ (svcs : List Service) (db : Database) (tr : List TraceEvent),
      (∀ s ∈ svcs.filter (fun s => (sv.get_service_handler s).is_generic),
        exceptOk ((sv.get_service_handler s).get_latest_episode stream config.useragent) =
          true) →
      (runGenericServices config sv rc sho stream db tr svcs).aborted = false ∧
      triedIds (runGenericServices config sv rc sho stream db tr svcs).trace =
        triedIds tr ++
          ((svcs.filter (fun s => (sv.get_service_handler s).is_generic)).takeWhile
            (fun s => !gHit config sv stream s)).map Service.id ++
          (match (svcs.filter (fun s => (sv.get_service_handler s).is_generic)).find?
              (gHit config sv stream) with
           | some s => [s.id]
           | none => []) ∧
      (match (svcs.filter (fun s => (sv.get_service_handler s).is_generic)).find?
          (gHit config sv stream) with
       | some s => ∃ e,
          (sv.get_service_handler s).get_latest_episode stream config.useragent =
            Except.ok (some e) ∧
          (runGenericServices config sv rc sho stream db tr svcs).db =
            (_process_new_episode config sv rc db sho stream e).db
       | none => (runGenericServices config sv rc sho stream db tr svcs).db = db) := by
  intro svcs
  induction svcs with
  | nil =>
    intro db tr _
    exact ⟨rfl, by simp [runGenericServices], rfl⟩
  | cons service rest ih =>
    intro db tr hok
    by_cases hg : ((sv.get_service_handler service).is_generic : Bool) = true
    · have hfil : (service :: rest).filter (fun s => (sv.get_service_handler s).is_generic) =
          service :: rest.filter (fun s => (sv.get_service_handler s).is_generic) :=
        List.filter_cons_of_pos hg
      cases hcall : (sv.get_service_handler service).get_latest_episode stream
          config.useragent with
      | error e =>
        have hbad := hok service (by rw [hfil]; exact List.mem_cons_self service _)
        rw [hcall] at hbad
        simp [exceptOk] at hbad
      | ok oe =>
        cases oe with
        | none =>
          have hhit : gHit config sv stream service = false := by simp [gHit, hcall]
          have hstep : runGenericServices config sv rc sho stream db tr (service :: rest) =
              runGenericServices config sv rc sho stream db
                (tr ++ [TraceEvent.genericTried sho.id service.id]) rest := by
            simp only [runGenericServices, hg, hcall, if_true]
          obtain ⟨h1, h2, h3⟩ := ih db (tr ++ [TraceEvent.genericTried sho.id service.id])
            (fun s hs => hok s (by rw [hfil]; exact List.mem_cons_of_mem _ hs))
          rw [hstep, hfil]
          have htake : (service :: rest.filter
                (fun s => (sv.get_service_handler s).is_generic)).takeWhile
              (fun s => !gHit config sv stream s) =
              service :: (rest.filter (fun s => (sv.get_service_handler s).is_generic)).takeWhile
                (fun s => !gHit config sv stream s) :=
            List.takeWhile_cons_of_pos (by rw [hhit]; rfl)
          have hfind : (service :: rest.filter
                (fun s => (sv.get_service_handler s).is_generic)).find?
              (gHit config sv stream) =
              (rest.filter (fun s => (sv.get_service_handler s).is_generic)).find?
                (gHit config sv stream) :=
            List.find?_cons_of_neg _ (by rw [hhit]; exact Bool.false_ne_true)
          refine ⟨h1, ?_, ?_⟩
          · rw [h2, triedIds_append, htake, hfind]
            simp only [triedIds, List.map_cons, List.append_assoc, List.cons_append,
              List.nil_append, List.singleton_append]
          · rw [hfind]
            exact h3
        | some episode =>
          have hhit : gHit config sv stream service = true := by simp [gHit, hcall]
          have hstep : runGenericServices config sv rc sho stream db tr (service :: rest) =
              ⟨(_process_new_episode config sv rc db sho stream episode).db,
                (tr ++ [TraceEvent.genericTried sho.id service.id]) ++
                  [TraceEvent.genericProcessed sho.id service.id
                    (_process_new_episode config sv rc db sho stream episode).state],
                false⟩ := by
            simp only [runGenericServices, hg, hcall, if_true]
          rw [hstep, hfil]
          have htake : (service :: rest.filter
                (fun s => (sv.get_service_handler s).is_generic)).takeWhile
              (fun s => !gHit config sv stream s) = [] :=
            List.takeWhile_cons_of_neg (by rw [hhit]; simp)
          have hfind : (service :: rest.filter
                (fun s => (sv.get_service_handler s).is_generic)).find?
              (gHit config sv stream) = some service :=
            List.find?_cons_of_pos _ hhit
          refine ⟨rfl, ?_, ?_⟩
          · rw [htake, hfind]
            simp only [triedIds_append, triedIds, List.map_nil, List.append_nil,
              List.nil_append, List.append_assoc, List.singleton_append, List.cons_append]
          · rw [hfind]
            exact ⟨episode, hcall, rfl⟩
    · have hfil : (service :: rest).filter (fun s => (sv.get_service_handler s).is_generic) =
          rest.filter (fun s => (sv.get_service_handler s).is_generic) :=
        List.filter_cons_of_neg hg
      have hstep : runGenericServices config sv rc sho stream db tr (service :: rest) =
          runGenericServices config sv rc sho stream db tr rest := by
        simp only [runGenericServices, hg, if_false, Bool.false_eq_true]
      rw [hstep, hfil]
      exact ih db tr (fun s hs => hok s (by rw [hfil]; exact hs))

/-- C9: for a show of the fallback set, the generic pass probes with the
synthesized stream (offsets 0, key = the show's canonical key), tries, over
the enabled services, only the handlers flagged generic and in that order,
stops at the first one returning an episode, and processes exactly that
episode; and the fallback set holds precisely the shows with no tracked
stream or flagged delayed. -/
theorem C9_generic_fallback (config : Config) (sv : ServicesEnv) (rc : RedditClient)
    (db : Database) (tr : List TraceEvent) (sho : Show)
    (hok : ∀ s ∈ (get_services db true).filter
        (fun s => (sv.get_service_handler s).is_generic),
      exceptOk ((sv.get_service_handler s).get_latest_episode (Stream.from_show sho)
        config.useragent) = true) :
    (Stream.from_show sho).remote_offset = 0 ∧
    (Stream.from_show sho).display_offset = 0 ∧
    (Stream.from_show sho).show_key = sho.key ∧
    (sho ∈ otherShows db ↔ (sho ∈ db.shows ∧
      (db.streams.any (fun st => st.showId == sho.id) = false ∨ sho.delayed = true))) ∧
    (runGenericServices config sv rc sho (Stream.from_show sho) db tr
      (get_services db true)).aborted = false ∧
    triedIds (runGenericServices config sv rc sho (Stream.from_show sho) db tr
        (get_services db true)).trace =
      triedIds tr ++
        (((get_services db true).filter
            (fun s => (sv.get_service_handler s).is_generic)).takeWhile
          (fun s => !gHit config sv (Stream.from_show sho) s)).map Service.id ++
        (match ((get_services db true).filter
            (fun s => (sv.get_service_handler s).is_generic)).find?
            (gHit config sv (Stream.from_show sho)) with
         | some s => [s.id]
         | none => []) ∧
    (match ((get_services db true).filter
        (fun s => (sv.get_service_handler s).is_generic)).find?
        (gHit config sv (Stream.from_show sho)) with
     | some s => ∃ e,
        (sv.get_service_handler s).get_latest_episode (Stream.from_show sho)
          config.useragent = Except.ok (some e) ∧
        (runGenericServices config sv rc sho (Stream.from_show sho) db tr
          (get_services db true)).db =
          (_process_new_episode config sv rc db sho (Stream.from_show sho) e).db
     | none => (runGenericServices config sv rc sho (Stream.from_show sho) db tr
        (get_services db true)).db = db) := by
  obtain ⟨h1, h2, h3⟩ := runGenericServices_spec config sv rc sho (Stream.from_show sho)
    (get_services db true) db tr hok
  refine ⟨rfl, rfl, rfl, ?_, h1, h2, h3⟩
  simp only [otherShows, List.mem_dedup, List.mem_append, get_shows_missing_stream,
    get_shows_delayed, List.mem_filter, Bool.not_eq_true, Bool.not_eq_true']
  tauto

/-- A second service whose handler is generic and finds `epLive7`. -/
def svcG : Service := { id := 2, name := "G", enabled := true, use_in_post := false }

/-- Registry where only service 2 is generic; its handler always returns
`epLive7`; the non-generic handler finds nothing. -/
def svGen : ServicesEnv :=
  { get_service_handler := fun s =>
      if s.id == 2 then
        { name := s.name, is_generic := true
          get_latest_episode := fun _ _ => Except.ok (some epLive7)
          get_stream_link := fun _ => "L" }
      else
        { name := s.name, is_generic := false
          get_latest_episode := fun _ _ => Except.ok none
          get_stream_link := fun _ => "L" }
    get_link_handler := fun _ => { get_link := fun _ => "" } }

/-- A delayed show with no tracked stream. -/
def showG : Show :=
  { id := 5, name := "G", enabled := true, has_source := false, delayed := true, key := "g" }

/-- Store for the generic-pass witness: one delayed streamless show, one
non-generic and one generic enabled service. -/
def db9 : Database :=
  { shows := [showG], streams := [], services := [svc1, svcG], episodes := [], links := [],
    sites := [] }

/-- Witness for C9: the probe of `showG` completes, tries exactly the
generic service (id 2) and no other, and `showG` is in the fallback set. -/
theorem C9_generic_fallback_witness :
    (runGenericServices cfg0 svGen reddit0 showG (Stream.from_show showG) db9 []
      (get_services db9 true)).aborted = false ∧
    triedIds (runGenericServices cfg0 svGen reddit0 showG (Stream.from_show showG) db9 []
      (get_services db9 true)).trace = [2] ∧
    showG ∈ otherShows db9 := by
  have h := C9_generic_fallback cfg0 svGen reddit0 db9 [] showG (by decide)
  refine ⟨h.2.2.2.2.1, ?_, ?_⟩
  · rw [h.2.2.2.2.2.1]
    decide
  · exact (h.2.2.2.1).mpr (by decide)

end Holo
